import Mathlib

/-!
Verification of the rust_lox repository: a tree-walking Lox interpreter
(`src/src`, `src/interpreter/src`) and a bytecode compiler plus stack VM
(`src/vm/src`).

The Rust sources are shallowly embedded: iterators over `Chars` become `Nat`
indices into a `List Char`, `HashMap` becomes an association list,
`Rc<RefCell<...>>` graphs (environments, instances) become arenas indexed by
`Nat` handles, and `f64` number payloads become `Rat` (no claim in scope
depends on IEEE-754 rounding; arithmetic structure is preserved).  Partial
loops take explicit fuel; a panic or fuel exhaustion is an explicit `none` /
`stuck` outcome.  Source strings avoid literal quote characters by
concatenating `squote`.
-/

/-- The single-quote character `'`, used when formatting error messages. -/
def squote : String := String.singleton (Char.ofNat 39)

/-- The NUL character returned by the VM scanner `peek` at end of input. -/
def nulChar : Char := Char.ofNat 0

/-- Left brace character. -/
def lbraceChar : Char := Char.ofNat 123

/-- Right brace character. -/
def rbraceChar : Char := Char.ofNat 125

namespace VmLox

/-- Token kinds of the VM scanner (`src/vm/src/scanner.rs`, `enum TokenType`).
Keyword kinds carry a `k` prefix because of Lean keyword clashes. -/
inductive VTokenType where
  | leftParen | rightParen | leftBrace | rightBrace | dot | comma | semicolon
  | plus | minus | slash | star
  | bang | bangEqual | equal | equalEqual | less | lessEqual | greater | greaterEqual
  | kVar | kFun | kClass | kThis | kSuper | kIf | kElse | kFor | kWhile | kReturn
  | kPrint | kAnd | kOr | kTrue | kFalse | kNil
  | number | string | identifier
  | eof
  | errorT
  deriving DecidableEq, Repr

/-- A VM scanner token (`Token` in `src/vm/src/scanner.rs`): kind, lexeme and
line.  For `errorT` tokens the lexeme holds the error message, as in the
source. -/
structure VToken where
  ttype : VTokenType
  lexeme : String
  line : Nat
  deriving DecidableEq, Repr

/-- `is_digit` from `src/vm/src/scanner.rs`. -/
def visDigit (c : Char) : Bool := '0' ≤ c && c ≤ '9'

/-- `is_alpha` from `src/vm/src/scanner.rs`. -/
def visAlpha (c : Char) : Bool :=
  ('A' ≤ c && c ≤ 'Z') || ('a' ≤ c && c ≤ 'z') || c = '_'

/-- VM scanner state (`Scanner`): the two `Chars` iterators become indices
into the fixed source. -/
structure VScan where
  src : List Char
  tstart : Nat
  current : Nat
  line : Nat
  deriving Repr

/-- `Scanner::new`. -/
def VScan.new (source : List Char) : VScan :=
  { src := source, tstart := 0, current := 0, line := 1 }

/-- `Scanner::is_at_end`: the `current` iterator is exhausted. -/
def VScan.isAtEnd (s : VScan) : Bool := s.src.length ≤ s.current

/-- `Scanner::peek`. -/
def VScan.peek (s : VScan) : Char :=
  if s.isAtEnd then nulChar else s.src.getD s.current nulChar

/-- `Scanner::peek_next`. -/
def VScan.peekNext (s : VScan) : Char :=
  if s.src.length < s.current + 2 then nulChar else s.src.getD (s.current + 1) nulChar

/-- `Scanner::advance`: return the current char and move past it (the Rust
`Chars::next` is a no-op at end of input). -/
def VScan.advance (s : VScan) : Char × VScan :=
  (s.peek, { s with current := min (s.current + 1) s.src.length })

/-- `Scanner::match_char`. -/
def VScan.matchChar (s : VScan) (c : Char) : Bool × VScan :=
  if !s.isAtEnd && s.peek = c then (true, (s.advance).2) else (false, s)

/-- The lexeme between the `start` and `current` iterators
(`Scanner::lexeme`). -/
def VScan.lexemeChars (s : VScan) : List Char :=
  (s.src.drop s.tstart).take (s.current - s.tstart)

/-- `Scanner::make_token`. -/
def VScan.makeToken (s : VScan) (t : VTokenType) : VToken :=
  { ttype := t, lexeme := String.mk s.lexemeChars, line := s.line }

/-- `Scanner::error_token`. -/
def VScan.errorToken (s : VScan) (message : String) : VToken :=
  { ttype := .errorT, lexeme := message, line := s.line }

/-- The comment-skipping inner loop of `Scanner::skip_whitespace`
(`while self.peek() != newline && !self.is_at_end()`). -/
def VScan.skipComment (fuel : Nat) (s : VScan) : VScan :=
  match fuel with
  | 0 => s
  | fuel + 1 =>
      if s.peek ≠ '\n' && !s.isAtEnd then VScan.skipComment fuel (s.advance).2 else s

/-- `Scanner::skip_whitespace`. -/
def VScan.skipWhitespace (fuel : Nat) (s : VScan) : VScan :=
  match fuel with
  | 0 => s
  | fuel + 1 =>
      let c := s.peek
      if c = ' ' || c = '\r' || c = '\t' then
        VScan.skipWhitespace fuel (s.advance).2
      else if c = '\n' then
        VScan.skipWhitespace fuel ((s.advance).2 |> fun s' => { s' with line := s'.line + 1 })
      else if c = '/' then
        if s.peekNext = '/' then
          VScan.skipWhitespace fuel (VScan.skipComment s.src.length s)
        else s
      else s

/-- The body loop of `Scanner::string`. -/
def VScan.stringLoop (fuel : Nat) (s : VScan) : VScan :=
  match fuel with
  | 0 => s
  | fuel + 1 =>
      if s.peek ≠ '"' && !s.isAtEnd then
        let s := if s.peek = '\n' then { s with line := s.line + 1 } else s
        VScan.stringLoop fuel (s.advance).2
      else s

/-- `Scanner::string`. -/
def VScan.stringToken (s : VScan) : VToken × VScan :=
  let s := VScan.stringLoop s.src.length s
  if s.isAtEnd then (s.errorToken "Unterminated string.", s)
  else
    let s := (s.advance).2
    (s.makeToken .string, s)

/-- The digit-consuming loop of `Scanner::number`. -/
def VScan.digits (fuel : Nat) (s : VScan) : VScan :=
  match fuel with
  | 0 => s
  | fuel + 1 => if visDigit s.peek then VScan.digits fuel (s.advance).2 else s

/-- `Scanner::number`. -/
def VScan.numberToken (s : VScan) : VToken × VScan :=
  let s := VScan.digits s.src.length s
  let s :=
    if s.peek = '.' && visDigit s.peekNext then
      VScan.digits s.src.length (s.advance).2
    else s
  (s.makeToken .number, s)

/-- `Scanner::check_keyword`: compare the tail of the lexeme, from byte
`start`, against `rest`. -/
def VScan.checkKeyword (s : VScan) (start : Nat) (rest : List Char)
    (t : VTokenType) : VTokenType :=
  if s.lexemeChars.drop start = rest then t else .identifier

/-- `Scanner::identifier_type`: the hand-rolled keyword trie. -/
def VScan.identifierType (s : VScan) : VTokenType :=
  let lex := s.lexemeChars
  match lex.getD 0 nulChar with
  | 'a' => s.checkKeyword 1 ['n', 'd'] .kAnd
  | 'c' => s.checkKeyword 1 ['c', 'l', 'a', 's', 's'] .kClass
  | 'e' => s.checkKeyword 1 ['l', 's', 'e'] .kElse
  | 'f' =>
      match lex.getD 1 nulChar with
      | 'a' => if 1 < lex.length then s.checkKeyword 2 ['l', 's', 'e'] .kFalse else .identifier
      | 'o' => if 1 < lex.length then s.checkKeyword 2 ['r'] .kFor else .identifier
      | 'u' => if 1 < lex.length then s.checkKeyword 2 ['n'] .kFun else .identifier
      | _ => .identifier
  | 'i' => s.checkKeyword 1 ['f'] .kIf
  | 'n' => s.checkKeyword 1 ['i', 'l'] .kNil
  | 'o' => s.checkKeyword 1 ['r'] .kOr
  | 'p' => s.checkKeyword 1 ['r', 'i', 'n', 't'] .kPrint
  | 'r' => s.checkKeyword 1 ['e', 't', 'u', 'r', 'n'] .kReturn
  | 's' => s.checkKeyword 1 ['u', 'p', 'e', 'r'] .kSuper
  | 't' =>
      match lex.getD 1 nulChar with
      | 'h' => if 1 < lex.length then s.checkKeyword 2 ['i', 's'] .kThis else .identifier
      | 'r' => if 1 < lex.length then s.checkKeyword 2 ['u', 'e'] .kTrue else .identifier
      | _ => .identifier
  | 'v' => s.checkKeyword 1 ['a', 'r'] .kVar
  | 'w' => s.checkKeyword 1 ['h', 'i', 'l', 'e'] .kWhile
  | _ => .identifier

/-- The alphanumeric loop of `Scanner::identifier`. -/
def VScan.identChars (fuel : Nat) (s : VScan) : VScan :=
  match fuel with
  | 0 => s
  | fuel + 1 =>
      if visAlpha s.peek || visDigit s.peek then VScan.identChars fuel (s.advance).2 else s

/-- `Scanner::identifier`. -/
def VScan.identifierToken (s : VScan) : VToken × VScan :=
  let s := VScan.identChars s.src.length s
  (s.makeToken s.identifierType, s)

/-- `Scanner::scan_token`. -/
def VScan.scanToken (s : VScan) : VToken × VScan :=
  let s := VScan.skipWhitespace (s.src.length + 1) s
  let s := { s with tstart := s.current }
  if s.isAtEnd then (s.makeToken .eof, s)
  else
    let (c, s) := s.advance
    if visAlpha c then s.identifierToken
    else if visDigit c then s.numberToken
    else if c = '(' then (s.makeToken .leftParen, s)
    else if c = ')' then (s.makeToken .rightParen, s)
    else if c = lbraceChar then (s.makeToken .leftBrace, s)
    else if c = rbraceChar then (s.makeToken .rightBrace, s)
    else if c = ';' then (s.makeToken .semicolon, s)
    else if c = ',' then (s.makeToken .comma, s)
    else if c = '.' then (s.makeToken .dot, s)
    else if c = '-' then (s.makeToken .minus, s)
    else if c = '+' then (s.makeToken .plus, s)
    else if c = '/' then (s.makeToken .slash, s)
    else if c = '*' then (s.makeToken .star, s)
    else if c = '!' then
      let (m, s) := s.matchChar '='
      (s.makeToken (if m then .bangEqual else .bang), s)
    else if c = '=' then
      let (m, s) := s.matchChar '='
      (s.makeToken (if m then .equalEqual else .equal), s)
    else if c = '<' then
      let (m, s) := s.matchChar '='
      (s.makeToken (if m then .lessEqual else .less), s)
    else if c = '>' then
      let (m, s) := s.matchChar '='
      (s.makeToken (if m then .greaterEqual else .greater), s)
    else if c = '"' then s.stringToken
    else (s.errorToken "Unexpected character.", s)

end VmLox

namespace VmLox

/-- Opcodes (`enum Op`), as matched by the executor in `src/vm/src/vm.rs`. -/
inductive Op where
  | constant | opNil | opTrue | opFalse
  | equal | greater | less
  | add | subtract | multiply | divide
  | negate | opNot | opReturn
  deriving DecidableEq, Repr

/-- `Op as u8` under the declaration order of the executor's opcode list. -/
def Op.toByte : Op → Nat
  | .constant => 0 | .opNil => 1 | .opTrue => 2 | .opFalse => 3
  | .equal => 4 | .greater => 5 | .less => 6
  | .add => 7 | .subtract => 8 | .multiply => 9 | .divide => 10
  | .negate => 11 | .opNot => 12 | .opReturn => 13

/-- `TryFrom<u8> for Op`. -/
def Op.ofByte : Nat → Option Op
  | 0 => some .constant | 1 => some .opNil | 2 => some .opTrue | 3 => some .opFalse
  | 4 => some .equal | 5 => some .greater | 6 => some .less
  | 7 => some .add | 8 => some .subtract | 9 => some .multiply | 10 => some .divide
  | 11 => some .negate | 12 => some .opNot | 13 => some .opReturn
  | _ => none

/-- A VM runtime value (`src/vm/src/value.rs`, `enum Value`); `f64` is
modeled by `Rat`. -/
inductive Value where
  | nil
  | bool (b : Bool)
  | number (n : Rat)
  deriving DecidableEq, Repr

/-- `Value::is_falsy`. -/
def Value.isFalsy : Value → Bool
  | .bool v => !v
  | _ => true

/-- `PartialEq for Value`: mixed kinds are never equal. -/
def Value.eqv : Value → Value → Bool
  | .nil, .nil => true
  | .bool l, .bool r => l == r
  | .number l, .number r => l == r
  | _, _ => false

/-- Parse a scanned number lexeme (`DIGIT+ ("." DIGIT+)?`) the way
`lexeme.parse::<f64>()` does, into `Rat`. -/
def parseNumber (chars : List Char) : Rat :=
  let digits := fun (l : List Char) =>
    l.foldl (fun acc c => acc * 10 + (c.toNat - '0'.toNat)) 0
  let whole := chars.takeWhile (fun c => c ≠ '.')
  let frac := (chars.dropWhile (fun c => c ≠ '.')).drop 1
  (digits whole : Rat) + (digits frac : Rat) / ((10 : Rat) ^ frac.length)

/-- A chunk (`src/vm/src/chunk.rs`): parallel arrays of code bytes, constants
and source lines.  Constants store the parsed number value. -/
structure Chunk where
  code : List Nat
  constants : List Value
  lines : List Nat
  deriving DecidableEq, Repr

/-- `Chunk::new`. -/
def Chunk.new : Chunk := { code := [], constants := [], lines := [] }

/-- `Chunk::write`. -/
def Chunk.write (c : Chunk) (byte : Nat) (line : Nat) : Chunk :=
  { c with code := c.code ++ [byte], lines := c.lines ++ [line] }

/-- `Chunk::add_constant` (`Array::add` returns the offset of the new
element). -/
def Chunk.addConstant (c : Chunk) (v : Value) : Nat × Chunk :=
  (c.constants.length, { c with constants := c.constants ++ [v] })

/-- The Pratt parser's helper state (`struct Parser` in
`src/vm/src/compiler.rs`).  `eprint` diagnostics are collected in `errOut`. -/
structure VParser where
  scanner : VScan
  current : VToken
  previous : Option VToken
  hadError : Bool
  panicMode : Bool
  errOut : List String

/-- `Parser::error_at`. -/
def VParser.errorAt (p : VParser) (token : VToken) (message : String) : VParser :=
  if p.panicMode then p
  else
    let atPart :=
      match token.ttype with
      | .eof => " at end"
      | .errorT => ""
      | _ => " at " ++ squote ++ token.lexeme ++ squote
    { p with
      panicMode := true
      hadError := true
      errOut := p.errOut ++
        ["[line " ++ Nat.repr token.line ++ "] Error" ++ atPart ++ ": " ++ message] }

/-- `Parser::error_at_current`. -/
def VParser.errorAtCurrent (p : VParser) (message : String) : VParser :=
  p.errorAt p.current message

/-- `Parser::error` (at the previous token; the Rust unwraps `previous`). -/
def VParser.errorAtPrevious (p : VParser) : String → VParser :=
  fun message =>
    match p.previous with
    | some t => p.errorAt t message
    | none => p

/-- The error-skipping loop inside `Parser::advance`. -/
def VParser.advanceLoop (fuel : Nat) (p : VParser) : VParser :=
  match fuel with
  | 0 => p
  | fuel + 1 =>
      let (t, sc) := p.scanner.scanToken
      let p := { p with scanner := sc, current := t }
      if t.ttype = .errorT then
        VParser.advanceLoop fuel (p.errorAtCurrent t.lexeme)
      else p

/-- `Parser::advance`. -/
def VParser.advance (p : VParser) : VParser :=
  VParser.advanceLoop (p.scanner.src.length + 2) { p with previous := some p.current }

/-- `Parser::consume`. -/
def VParser.consume (p : VParser) (t : VTokenType) (message : String) : VParser :=
  if p.current.ttype = t then p.advance else p.errorAtCurrent message

/-- `Parser::new`: scan the first token eagerly. -/
def VParser.new (source : List Char) : VParser :=
  let (t, sc) := (VScan.new source).scanToken
  { scanner := sc, current := t, previous := none,
    hadError := false, panicMode := false, errOut := [] }

/-- Compiler state: the parser plus the chunk under construction. -/
structure Comp where
  parser : VParser
  chunk : Chunk

/-- The tags dispatched through the parse-rule table: the Rust table stores
`fn(&mut Compiler)` pointers to `grouping`, `unary`, `binary` and `number`. -/
inductive RuleFn where
  | grouping | unary | binary | number
  deriving DecidableEq, Repr

/-- One row of the parse-rule table; `pre`/`inf` model the `prefix`/`infix`
fields, `prec` the numeric `Precedence` (None = 0 … Primary = 10). -/
structure ParseRule where
  pre : Option RuleFn
  inf : Option RuleFn
  prec : Nat

/-- `make_parse_rule_table` from `src/vm/src/compiler.rs`, as a function of
the token kind: only `LeftParen`, `Minus`, `Plus`, `Slash`, `Star` and
`Number` have non-default rules. -/
def getRule : VTokenType → ParseRule
  | .leftParen => { pre := some .grouping, inf := none, prec := 0 }
  | .minus => { pre := some .unary, inf := some .binary, prec := 6 }
  | .plus => { pre := none, inf := some .binary, prec := 6 }
  | .slash => { pre := none, inf := some .binary, prec := 7 }
  | .star => { pre := none, inf := some .binary, prec := 7 }
  | .number => { pre := some .number, inf := none, prec := 0 }
  | _ => { pre := none, inf := none, prec := 0 }

/-- `Compiler::emit_byte` (the line is the previous token's, unwrapped). -/
def Comp.emitByte (c : Comp) (byte : Nat) : Comp :=
  let line := (c.parser.previous.map VToken.line).getD 0
  { c with chunk := c.chunk.write byte line }

/-- `Compiler::emit_op`. -/
def Comp.emitOp (c : Comp) (op : Op) : Comp := c.emitByte op.toByte

/-- `Compiler::make_constant`. -/
def Comp.makeConstant (c : Comp) (v : Value) : Nat × Comp :=
  let (idx, chunk) := c.chunk.addConstant v
  if 255 < idx then
    (0, { c with parser := c.parser.errorAtPrevious "Too many constants in one chunk." })
  else (idx, { c with chunk := chunk })

/-- `Compiler::emit_constant`. -/
def Comp.emitConstant (c : Comp) (v : Value) : Comp :=
  let (idx, c) := c.makeConstant v
  (c.emitByte Op.constant.toByte).emitByte idx

/-- `Compiler::number`: parse the previous token's lexeme and emit a
constant. -/
def Comp.number (c : Comp) : Comp :=
  let lex := (c.parser.previous.map VToken.lexeme).getD ""
  c.emitConstant (.number (parseNumber lex.toList))

/-- The mutually recursive core of the Pratt compiler
(`Compiler::parse_precedence`, `unary`, `binary`, `grouping`,
`expression`), with explicit fuel.  `none` models a panic
(`rule.infix.unwrap()` on a missing infix rule) or fuel exhaustion. -/
def compGo (fuel : Nat) (fn : RuleFn) (c : Comp) : Option Comp :=
  match fuel with
  | 0 => none
  | fuel + 1 =>
      match fn with
      | .number => some (c.number)
      | .grouping => do
          -- Compiler::grouping
          let c ← parsePrec fuel 1 c
          pure { c with parser := c.parser.consume .rightParen "Expect ')' after expression." }
      | .unary => do
          -- Compiler::unary
          let operator := (c.parser.previous.map VToken.ttype).getD .eof
          let c ← parsePrec fuel 8 c
          match operator with
          | .minus => pure (c.emitOp .negate)
          | _ => pure c
      | .binary => do
          -- Compiler::binary
          let operator := (c.parser.previous.map VToken.ttype).getD .eof
          let rule := getRule operator
          let c ← parsePrec fuel (rule.prec + 1) c
          match operator with
          | .plus => pure (c.emitOp .add)
          | .minus => pure (c.emitOp .subtract)
          | .star => pure (c.emitOp .multiply)
          | .slash => pure (c.emitOp .divide)
          | _ => pure c
where
  /-- `Compiler::parse_precedence`. -/
  parsePrec (fuel : Nat) (prec : Nat) (c : Comp) : Option Comp :=
    match fuel with
    | 0 => none
    | fuel + 1 =>
        let c := { c with parser := c.parser.advance }
        let prefixRule := (getRule ((c.parser.previous.map VToken.ttype).getD .eof)).pre
        match prefixRule with
        | none => some { c with parser := c.parser.errorAtPrevious "Expect expression." }
        | some pr => do
            let c ← compGo fuel pr c
            infixLoop fuel prec c
  /-- The infix loop inside `parse_precedence`; `rule.infix.unwrap()` is a
  panic (`none`) when the rule has no infix entry. -/
  infixLoop (fuel : Nat) (prec : Nat) (c : Comp) : Option Comp :=
    match fuel with
    | 0 => none
    | fuel + 1 =>
        let rule := getRule c.parser.current.ttype
        if prec ≤ rule.prec then do
          let infixRule ← rule.inf
          let c := { c with parser := c.parser.advance }
          let c ← compGo fuel infixRule c
          infixLoop fuel prec c
        else some c

/-- `Compiler::expression`. -/
def Comp.expression (fuel : Nat) (c : Comp) : Option Comp :=
  compGo.parsePrec fuel 1 c

/-- `Compiler::compile` (`Compiler::new` + `compile`): returns success flag,
the built chunk, and the collected compile diagnostics. -/
def vmCompile (fuel : Nat) (source : List Char) : Option (Bool × Chunk × List String) := do
  let c : Comp := { parser := VParser.new source, chunk := Chunk.new }
  let c ← c.expression fuel
  let c := { c with parser := c.parser.consume .eof "Expect end of expression." }
  -- end_compiler: emit_return
  let c := c.emitOp .opReturn
  pure (!c.parser.hadError, c.chunk, c.parser.errOut)

end VmLox

namespace VmLox

/-- `enum InterpretResult` from `src/vm/src/vm.rs`. -/
inductive InterpretResult where
  | ok
  | compileError
  | runtimeError
  deriving DecidableEq, Repr

/-- Display form used by `Value::print` (`{}` on the payload); the default
f64 formatting of non-integral numbers is represented by the reduced
fraction. -/
def Value.display : Value → String
  | .nil => "nil"
  | .bool true => "true"
  | .bool false => "false"
  | .number n =>
      if n.den = 1 then Int.repr n.num
      else Int.repr n.num ++ "/" ++ Nat.repr n.den

/-- VM runner state (`struct Runner` plus the VM's stack): the stack grows
at the head, the instruction pointer is an index into `chunk.code`;
`out`/`errOut` collect stdout/stderr lines. -/
structure RunState where
  stack : List Value
  chunk : Chunk
  ip : Nat
  out : List String
  errOut : List String

/-- `Runner::runtime_error`: print the message and the line of the
instruction before the current offset, reset the stack, halt with
`RuntimeError`. -/
def RunState.runtimeError (st : RunState) (message : String) :
    Option InterpretResult × RunState :=
  let line := st.chunk.lines.getD (st.ip - 1) 0
  (some .runtimeError,
    { st with
      stack := []
      errOut := st.errOut ++ [message, "[line " ++ Nat.repr line ++ "] in script"] })

/-- The `binary_op!` macro of `src/vm/src/vm.rs`: peek both operands, and
either pop them and push the result or fail with the (source-verbatim)
message `Operands mut be numbers.`. -/
def RunState.binaryOp (st : RunState) (apply : Rat → Rat → Value) :
    Option InterpretResult × RunState :=
  match st.stack with
  | .number b :: .number a :: rest => (none, { st with stack := apply a b :: rest })
  | _ => st.runtimeError "Operands mut be numbers."

/-- One decoded step of `Runner::run`; `none` models the unchecked unwraps
(bad opcode byte, popping an empty stack). -/
def runStep (st : RunState) : Option (Option InterpretResult × RunState) := do
  let byte ← st.chunk.code.get? st.ip
  let op ← Op.ofByte byte
  let st := { st with ip := st.ip + 1 }
  match op with
  | .constant => do
      let idx ← st.chunk.code.get? st.ip
      let st := { st with ip := st.ip + 1 }
      let v ← st.chunk.constants.get? idx
      pure (none, { st with stack := v :: st.stack })
  | .opNil => pure (none, { st with stack := .nil :: st.stack })
  | .opTrue => pure (none, { st with stack := .bool true :: st.stack })
  | .opFalse => pure (none, { st with stack := .bool false :: st.stack })
  | .equal =>
      match st.stack with
      | b :: a :: rest => pure (none, { st with stack := .bool (a.eqv b) :: rest })
      | _ => none
  | .greater => pure (st.binaryOp (fun a b => .bool (decide (b < a))))
  | .less => pure (st.binaryOp (fun a b => .bool (decide (a < b))))
  | .add => pure (st.binaryOp (fun a b => .number (a + b)))
  | .subtract => pure (st.binaryOp (fun a b => .number (a - b)))
  | .multiply => pure (st.binaryOp (fun a b => .number (a * b)))
  | .divide => pure (st.binaryOp (fun a b => .number (a / b)))
  | .negate =>
      match st.stack with
      | .number v :: rest => pure (none, { st with stack := .number (-v) :: rest })
      | _ :: _ => pure (st.runtimeError "Operand must be a number.")
      | [] => none
  | .opNot =>
      match st.stack with
      | v :: rest => pure (none, { st with stack := .bool v.isFalsy :: rest })
      | [] => none
  | .opReturn =>
      match st.stack with
      | v :: rest =>
          pure (some .ok, { st with stack := rest, out := st.out ++ [v.display] })
      | [] => none

/-- The fetch-decode-execute loop of `Runner::run`. -/
def runLoop (fuel : Nat) (st : RunState) : Option (InterpretResult × RunState) :=
  match fuel with
  | 0 => none
  | fuel + 1 => do
      let (res, st) ← runStep st
      match res with
      | some r => pure (r, st)
      | none => runLoop fuel st

/-- `VM::interpret` (`src/vm/src/vm.rs`): compile, then run; returns the
result with the collected stdout and stderr lines. -/
def vmInterpret (fuel : Nat) (source : List Char) :
    Option (InterpretResult × List String × List String) := do
  let (okc, chunk, errs) ← vmCompile fuel source
  if !okc then
    pure (.compileError, [], errs)
  else do
    let st : RunState := { stack := [], chunk := chunk, ip := 0, out := [], errOut := [] }
    let (r, st) ← runLoop fuel st
    pure (r, st.out, errs ++ st.errOut)

/-- The source text of §8 scenario 7: `-1.2 + 3.4`. -/
def c2Source : List Char := "-1.2 + 3.4".toList

/-- The source text of §8 scenario 8: `"a" + 1`. -/
def c6Source : List Char := "\"a\" + 1".toList

end VmLox

open VmLox in
/-- C8: the VM scanner's keyword trie mis-handles the reserved word
`class`: the `c` arm calls `check_keyword(1, "class", Class)`, comparing the
lexeme's tail `lass` against `class`, so scanning the source `class`
produces an `Identifier` token, not the `Class` keyword token the claim (and
the reserved-word table) requires.  This theorem evaluates the scanner at
the failing input. -/
theorem c8_class_scans_as_identifier :
    ((VScan.new "class".toList).scanToken).1 =
      { ttype := VTokenType.identifier, lexeme := "class", line := 1 } ∧
    ((VScan.new "cclass".toList).scanToken).1.ttype = VTokenType.kClass ∧
    ((VScan.new "var".toList).scanToken).1.ttype = VTokenType.kVar := by
  refine ⟨by decide, by decide, by decide⟩

open VmLox in
/-- C2 counterexample: compiling `-1.2 + 3.4` does NOT produce the claimed
opcode sequence `Constant 0, Constant 1, Negate, Add, Return`. -/
theorem c2_claimed_sequence_refuted :
    (vmCompile 100 c2Source).map (fun r => r.2.1.code) ≠
      some [Op.constant.toByte, 0, Op.constant.toByte, 1,
            Op.negate.toByte, Op.add.toByte, Op.opReturn.toByte] := by
  decide

open VmLox in
/-- C2 (amended): compiling `-1.2 + 3.4` succeeds without diagnostics and
produces the opcode sequence `Constant 0, Negate, Constant 1, Add, Return`:
the `Negate` for the prefix minus is emitted directly after its operand's
constant, before the right-hand operand is compiled. -/
theorem c2_compiled_sequence :
    (vmCompile 100 c2Source).map (fun r => (r.1, r.2.1.code, r.2.2)) =
      some (true,
        [Op.constant.toByte, 0, Op.negate.toByte,
         Op.constant.toByte, 1, Op.add.toByte, Op.opReturn.toByte], []) := by
  decide

open VmLox in
/-- C6 counterexample: running the bytecode pipeline on `"a" + 1` does not
halt with `RuntimeError` — the parse-rule table has no prefix rule for
string tokens, so compilation already fails and the run halts with
`CompileError`. -/
theorem c6_runtime_error_refuted :
    (vmInterpret 100 c6Source).map (fun r => r.1) = some InterpretResult.compileError ∧
    InterpretResult.compileError ≠ InterpretResult.runtimeError := by
  exact ⟨by decide, by decide⟩

open VmLox in
/-- C6 (amended): the bytecode pipeline on `"a" + 1` reports the compile
error `Expect expression.` at the string token and halts with
`CompileError`, printing nothing; no runtime error (and no
`[line 1] in script` trailer) is produced. -/
theorem c6_compile_error :
    vmInterpret 100 c6Source =
      some (InterpretResult.compileError, [],
        ["[line 1] Error at " ++ squote ++ "\"a\"" ++ squote ++ ": Expect expression."]) := by
  decide

namespace TreeLox

/-- Token kinds of the tree-walking pipeline
(`src/interpreter/src/token.rs`). -/
inductive TokenType where
  | leftParen | rightParen | leftBrace | rightBrace | dot | comma | semicolon
  | plus | minus | slash | star
  | bang | bangEqual | equal | equalEqual | less | lessEqual | greater | greaterEqual
  | kVar | kFun | kClass | kThis | kSuper | kIf | kElse | kFor | kWhile | kReturn
  | kPrint | kAnd | kOr | kTrue | kFalse | kNil
  | number | string | identifier
  | eof
  deriving DecidableEq, Repr

/-- `enum LiteralValue`; `f64` is modeled by `Rat`. -/
inductive LiteralValue where
  | nil
  | bool (b : Bool)
  | number (n : Rat)
  | string (s : String)
  deriving DecidableEq, Repr

/-- `struct Token`. -/
structure Token where
  ttype : TokenType
  lexeme : String
  line : Nat
  literal : Option LiteralValue
  deriving DecidableEq, Repr

/-- The error collector of the tree-walking pipeline
(`src/interpreter/src/lox.rs`, `ErrorCollector`); `out` collects the lines
this backend prints to stdout (diagnostics and program output alike). -/
structure EC where
  out : List String
  hadError : Bool
  hadRuntimeError : Bool
  deriving DecidableEq, Repr

/-- `ErrorCollector::report_static_error`. -/
def EC.reportStaticError (ec : EC) (line : Nat) (atPart : String) (message : String) : EC :=
  { ec with
    out := ec.out ++ ["[line " ++ Nat.repr line ++ "] Error" ++ atPart ++ ": " ++ message]
    hadError := true }

/-- `ErrorCollector::scanner_error`. -/
def EC.scannerError (ec : EC) (line : Nat) (message : String) : EC :=
  ec.reportStaticError line "" message

/-- `ErrorCollector::report_static_error_for_token` (used by both
`parser_error` and `resolver_error`). -/
def EC.tokenError (ec : EC) (token : Token) (message : String) : EC :=
  if token.ttype = .eof then ec.reportStaticError token.line " at end" message
  else ec.reportStaticError token.line (" at " ++ squote ++ token.lexeme ++ squote) message

/-- `ErrorCollector::runtime_error`: `println!("{} [line {}]", message, line)`
and set the runtime-error flag. -/
def EC.runtimeError (ec : EC) (message : String) (token : Token) : EC :=
  { ec with
    out := ec.out ++ [message ++ " [line " ++ Nat.repr token.line ++ "]"]
    hadRuntimeError := true }

/-- `is_digit` from `src/src/scanner.rs`. -/
def isDigit (c : Char) : Bool := '0' ≤ c && c ≤ '9'

/-- `is_alpha` from `src/src/scanner.rs` (note: no underscore). -/
def isAlpha (c : Char) : Bool := ('A' ≤ c && c ≤ 'Z') || ('a' ≤ c && c ≤ 'z')

/-- `is_alpha_numeric`. -/
def isAlphaNumeric (c : Char) : Bool := isDigit c || isAlpha c

/-- `resolve_keyword_type` from `src/src/scanner.rs` (extended with the
`Print` keyword present in `src/interpreter/src/token.rs`'s kind list and
required by the parser). -/
def resolveKeywordType (lexeme : String) : Option TokenType :=
  if lexeme = "var" then some .kVar
  else if lexeme = "fun" then some .kFun
  else if lexeme = "class" then some .kClass
  else if lexeme = "this" then some .kThis
  else if lexeme = "super" then some .kSuper
  else if lexeme = "if" then some .kIf
  else if lexeme = "else" then some .kElse
  else if lexeme = "for" then some .kFor
  else if lexeme = "while" then some .kWhile
  else if lexeme = "return" then some .kReturn
  else if lexeme = "print" then some .kPrint
  else if lexeme = "and" then some .kAnd
  else if lexeme = "or" then some .kOr
  else if lexeme = "true" then some .kTrue
  else if lexeme = "false" then some .kFalse
  else if lexeme = "nil" then some .kNil
  else none

/-- Parse a number lexeme (`DIGIT+ ("." DIGIT*)?`) the way
`lexeme.parse::<f64>()` does, into `Rat`. -/
def parseNumber (chars : List Char) : Rat :=
  let digits := fun (l : List Char) =>
    l.foldl (fun acc c => acc * 10 + (c.toNat - '0'.toNat)) 0
  let whole := chars.takeWhile (fun c => c ≠ '.')
  let frac := (chars.dropWhile (fun c => c ≠ '.')).drop 1
  (digits whole : Rat) + (digits frac : Rat) / ((10 : Rat) ^ frac.length)

/-- Tree-walking scanner state (`Scanner` in `src/src/scanner.rs`): source
bytes become a `List Char` (all inputs in scope are ASCII), the collector is
threaded in `ec`. -/
structure Scan where
  src : List Char
  line : Nat
  tstart : Nat
  current : Nat
  tokens : List Token
  ec : EC
  deriving Repr

/-- `Scanner::is_at_end`. -/
def Scan.isAtEnd (s : Scan) : Bool := s.src.length ≤ s.current

/-- `Scanner::peek` (`self.bytes[self.current]`; an out-of-bounds read is a
panic in Rust and never happens behind the `is_at_end` guards, `nulChar`
stands in as the default). -/
def Scan.peek (s : Scan) : Char := s.src.getD s.current nulChar

/-- `Scanner::advance`. -/
def Scan.advance (s : Scan) : Char × Scan :=
  (s.peek, { s with current := s.current + 1 })

/-- `Scanner::match_char`. -/
def Scan.matchChar (s : Scan) (c : Char) : Bool × Scan :=
  if !s.isAtEnd && s.peek = c then (true, (s.advance).2) else (false, s)

/-- `Scanner::lexeme`. -/
def Scan.lexemeChars (s : Scan) : List Char :=
  (s.src.drop s.tstart).take (s.current - s.tstart)

/-- `Scanner::add_full_token`. -/
def Scan.addFullToken (s : Scan) (t : TokenType) (literal : Option LiteralValue) : Scan :=
  { s with tokens := s.tokens ++
      [{ ttype := t, lexeme := String.mk s.lexemeChars, line := s.line, literal := literal }] }

/-- `Scanner::add_token`. -/
def Scan.addToken (s : Scan) (t : TokenType) : Scan := s.addFullToken t none

/-- The scan loop of `Scanner::string`. -/
def Scan.stringLoop (fuel : Nat) (s : Scan) : Scan :=
  match fuel with
  | 0 => s
  | fuel + 1 =>
      if s.isAtEnd then s
      else
        let s := if s.peek = '\n' then { s with line := s.line + 1 }
                 else s
        if s.peek = '"' then s
        else Scan.stringLoop fuel (s.advance).2

/-- `Scanner::string`. -/
def Scan.stringToken (s : Scan) : Scan :=
  let s := Scan.stringLoop (s.src.length + 1) s
  let (m, s) := s.matchChar '"'
  if !m then { s with ec := s.ec.scannerError s.line "Unterminated string." }
  else
    let lex := s.lexemeChars
    let value := String.mk ((lex.drop 1).take (lex.length - 2))
    s.addFullToken .string (some (.string value))

/-- The digit loops of `Scanner::number`. -/
def Scan.digits (fuel : Nat) (s : Scan) : Scan :=
  match fuel with
  | 0 => s
  | fuel + 1 =>
      if !s.isAtEnd && isDigit s.peek then Scan.digits fuel (s.advance).2 else s

/-- `Scanner::number` (note: unlike the VM scanner, the `.` is consumed even
when no digit follows it). -/
def Scan.numberToken (s : Scan) : Scan :=
  let s := Scan.digits s.src.length s
  let (m, s) := s.matchChar '.'
  let s := if m then Scan.digits s.src.length s else s
  s.addFullToken .number (some (.number (parseNumber s.lexemeChars)))

/-- `Scanner::identifier`. -/
def Scan.identifierToken (s : Scan) : Scan :=
  let rec loop (fuel : Nat) (s : Scan) : Scan :=
    match fuel with
    | 0 => s
    | fuel + 1 =>
        if !s.isAtEnd && isAlphaNumeric s.peek then loop fuel (s.advance).2 else s
  let s := loop s.src.length s
  s.addToken ((resolveKeywordType (String.mk s.lexemeChars)).getD .identifier)

/-- `Scanner::scan_token`: note that `' '` and tab are skipped, newline only
bumps the line counter, and every other unmatched character — including the
carriage return `\r` — reports `Unexpected character 'X'.`. -/
def Scan.scanToken (s : Scan) : Scan :=
  let (c, s) := s.advance
  if c = '(' then s.addToken .leftParen
  else if c = ')' then s.addToken .rightParen
  else if c = lbraceChar then s.addToken .leftBrace
  else if c = rbraceChar then s.addToken .rightBrace
  else if c = '.' then s.addToken .dot
  else if c = ',' then s.addToken .comma
  else if c = ';' then s.addToken .semicolon
  else if c = '+' then s.addToken .plus
  else if c = '-' then s.addToken .minus
  else if c = '/' then s.addToken .slash
  else if c = '*' then s.addToken .star
  else if c = '!' then
    let (m, s) := s.matchChar '='
    s.addToken (if m then .bangEqual else .bang)
  else if c = '=' then
    let (m, s) := s.matchChar '='
    s.addToken (if m then .equalEqual else .equal)
  else if c = '<' then
    let (m, s) := s.matchChar '='
    s.addToken (if m then .lessEqual else .less)
  else if c = '>' then
    let (m, s) := s.matchChar '='
    s.addToken (if m then .greaterEqual else .greater)
  else if c = '"' then s.stringToken
  else if c = ' ' || c = '\t' then s
  else if c = '\n' then { s with line := s.line + 1 }
  else if isDigit c then s.numberToken
  else if isAlpha c then s.identifierToken
  else
    let message := "Unexpected character " ++ squote ++ String.singleton c ++ squote ++ "."
    { s with ec := s.ec.scannerError s.line message }

/-- The loop of `Scanner::scan_tokens`. -/
def Scan.scanLoop (fuel : Nat) (s : Scan) : Scan :=
  match fuel with
  | 0 => s
  | fuel + 1 =>
      if s.isAtEnd then s
      else
        let s := s.scanToken
        Scan.scanLoop fuel { s with tstart := s.current }

/-- `Scanner::scan_tokens`: scan everything, then append the `Eof` token. -/
def scanTokens (source : List Char) (ec : EC) : List Token × EC :=
  let s : Scan := { src := source, line := 1, tstart := 0, current := 0,
                    tokens := [], ec := ec }
  let s := Scan.scanLoop (source.length + 1) s
  let s := s.addToken .eof
  (s.tokens, s.ec)

end TreeLox

namespace TreeLox

/-- The empty error collector, as at the start of a run. -/
def EC.fresh : EC := { out := [], hadError := false, hadRuntimeError := false }

/-- The carriage-return character. -/
def crChar : Char := Char.ofNat 13

end TreeLox

open TreeLox in
/-- C7 counterexample: the tree-walking scanner does NOT skip the carriage
return.  Scanning the one-character source `\r` produces no token besides
`Eof` but reports `Unexpected character '\r'.` and sets the error flag,
contradicting the claim that all four whitespace characters are skipped
without any error. -/
theorem c7_carriage_return_refuted :
    (scanTokens [crChar] EC.fresh).2.hadError = true ∧
    (scanTokens [crChar] EC.fresh).2.out =
      ["[line 1] Error: Unexpected character " ++ squote ++
        String.singleton crChar ++ squote ++ "."] := by
  exact ⟨by decide, by decide⟩

open TreeLox in
/-- C7 (amended): of the four whitespace characters only space, tab and
newline are skipped by `Scanner::scan_token` — no token is added, no error
is reported, and only the position (plus, for newline, the line counter)
changes; the carriage return instead falls through to the
`Unexpected character` arm. -/
theorem c7_whitespace_skipped (s : Scan) :
    (s.peek = ' ' ∨ s.peek = '\t' →
      s.scanToken = { s with current := s.current + 1 }) ∧
    (s.peek = '\n' →
      s.scanToken = { s with current := s.current + 1, line := s.line + 1 }) ∧
    (s.peek = crChar → ¬s.isAtEnd →
      s.scanToken =
        { s with current := s.current + 1,
                 ec := s.ec.scannerError s.line
                   ("Unexpected character " ++ squote ++
                     String.singleton crChar ++ squote ++ ".") }) := by
  refine ⟨fun h => ?_, fun h => ?_, fun h _ => ?_⟩
  · rcases h with h | h <;>
      simp [Scan.scanToken, Scan.advance, h, lbraceChar, rbraceChar, isDigit, isAlpha]
  · simp [Scan.scanToken, Scan.advance, h, lbraceChar, rbraceChar, isDigit, isAlpha]
  · simp [Scan.scanToken, Scan.advance, h, lbraceChar, rbraceChar, isDigit, isAlpha,
      crChar]

open TreeLox in
/-- Witness for `c7_whitespace_skipped` at concrete scanner states. -/
theorem c7_whitespace_skipped_witness :
    (let s : Scan := { src := [' ', 'x'], line := 1, tstart := 0, current := 0,
                       tokens := [], ec := EC.fresh }
     s.scanToken = { s with current := 1 }) ∧
    (let s : Scan := { src := ['\n'], line := 1, tstart := 0, current := 0,
                       tokens := [], ec := EC.fresh }
     s.scanToken = { s with current := 1, line := 2 }) := by
  constructor
  · exact (c7_whitespace_skipped _).1 (Or.inl (by decide))
  · exact (c7_whitespace_skipped _).2.1 (by decide)

namespace TreeLox

/-- `Late<T>` from `src/interpreter/src/utils.rs`: a write-once cell.  The
`UnsafeCell<Option<T>>` payload is the `value` field; in-place mutation
becomes functional update, and the `panic!()` on a second `set` becomes a
`none` result. -/
structure LateCell (α : Type) where
  value : Option α
  deriving DecidableEq, Repr

/-- `Late::new`. -/
def LateCell.new {α : Type} : LateCell α := ⟨none⟩

/-- `Late::set`: writing an already-written cell panics (`none`). -/
def LateCell.set {α : Type} (c : LateCell α) (v : α) : Option (LateCell α) :=
  match c.value with
  | some _ => none
  | none => some ⟨some v⟩

/-- `Late::get`. -/
def LateCell.get {α : Type} (c : LateCell α) : Option α := c.value

/-- The scope-depth slot carried by variable/`this`/`super`/assign nodes:
`Late<Option<usize>>` (`None` = global). -/
abbrev Slot := LateCell (Option Nat)

/-- Expression AST of the tree-walking pipeline.  The interpreter crate's
`ast.rs` is not under `src/`; the variants and fields are modelled from the
spec (§6 AST shape) and match every construction and use in
`src/interpreter/src/parser.rs`, `src/src/resolver.rs` and
`src/interpreter/src/interpreter.rs`. -/
inductive Expr where
  | literal (value : LiteralValue)
  | varE (name : Token) (scopeIndex : Slot)
  | assign (name : Token) (value : Expr) (scopeIndex : Slot)
  | unary (operator : Token) (expression : Expr)
  | binary (left : Expr) (operator : Token) (right : Expr)
  | condition (left : Expr) (operator : Token) (right : Expr)
  | grouping (expression : Expr)
  | call (callee : Expr) (paren : Token) (arguments : List Expr)
  | getE (obj : Expr) (name : Token)
  | setE (obj : Expr) (name : Token) (value : Expr)
  | thisE (token : Token) (scopeIndex : Slot)
  | superE (keyword : Token) (method : Token) (scopeIndex : Slot)

/-- Statement AST of the tree-walking pipeline (see `Expr`). -/
inductive Stmt where
  | expression (e : Expr)
  | block (statements : List Stmt)
  | varS (name : Token) (initializer : Option Expr)
  | functionS (name : Token) (parameters : List Token) (body : List Stmt)
  | classS (name : Token) (superClass : Option Expr) (methods : List Stmt)
  | printS (e : Expr)
  | ifS (condition : Expr) (thenStmt : Stmt) (elseStmt : Option Stmt)
  | whileS (condition : Expr) (body : Stmt)
  | returnS (token : Token) (value : Option Expr)

/-- Parser state (`Parser` in `src/interpreter/src/parser.rs`). -/
structure PState where
  tokens : List Token
  current : Nat
  ec : EC

/-- `Parser::peek` (`&self.tokens[self.current]`; the out-of-bounds panic is
`none` at use sites). -/
def PState.peek? (p : PState) : Option Token := p.tokens.get? p.current

/-- `Parser::previous`. -/
def PState.previous? (p : PState) : Option Token := p.tokens.get? (p.current - 1)

/-- `Parser::advance`. -/
def PState.advance (p : PState) : PState := { p with current := p.current + 1 }

/-- `Parser::match_token`. -/
def PState.matchToken (p : PState) (t : TokenType) : Option (Bool × PState) := do
  let tok ← p.peek?
  if tok.ttype = t then pure (true, p.advance) else pure (false, p)

/-- `Parser::error`: report through the collector and yield `Err`. -/
def PState.error (p : PState) (token : Token) (message : String) {α : Type} : Option (Except Unit α × PState) :=
  some (.error (), { p with ec := p.ec.tokenError token message })

/-- `Parser::consume`. -/
def PState.consume (p : PState) (t : TokenType) (message : String) : Option (Except Unit Token × PState) := do
  let tok ← p.peek?
  if tok.ttype = t then pure (.ok tok, p.advance) else p.error tok message

/-- `Parser::is_at_end` (requires a readable current token, like the
source's `peek`). -/
def PState.isAtEnd? (p : PState) : Option Bool := do
  let tok ← p.peek?
  pure (tok.ttype = .eof)

/-- Sequencing for parser outcomes (`none` is a panic or fuel exhaustion,
`Except Unit` the Rust `Result<_, ParserError>`): propagate both channels. -/
def pbind {α β : Type} (x : Option (Except Unit α × PState)) (f : α → PState → Option (Except Unit β × PState)) : Option (Except Unit β × PState) :=
  match x with
  | none => none
  | some (.error _, p) => some (.error (), p)
  | some (.ok a, p) => f a p

/-- The loop of `Parser::synchronize`. -/
def syncLoop (fuel : Nat) (p : PState) : Option PState :=
  match fuel with
  | 0 => none
  | fuel + 1 => do
      let atEnd ← p.isAtEnd?
      if atEnd then pure p
      else do
        let (m, p) ← p.matchToken .semicolon
        if m then pure p
        else do
          let tok ← p.peek?
          match tok.ttype with
          | .kVar | .kFun | .kClass | .kThis | .kSuper | .kIf | .kFor | .kWhile
          | .kReturn => pure p
          | _ => syncLoop fuel p.advance

/-- `Parser::synchronize`. -/
def PState.synchronize (p : PState) : Option PState :=
  syncLoop (p.tokens.length + 1) p.advance

mutual

/-- `Parser::declaration`. -/
def declaration (fuel : Nat) (p : PState) : Option (Except Unit Stmt × PState) :=
  match fuel with
  | 0 => none
  | fuel + 1 => do
      let (m, p) ← p.matchToken .kFun
      if m then functionDeclaration fuel "function" p
      else do
        let (m, p) ← p.matchToken .kClass
        if m then classDeclaration fuel p
        else do
          let (m, p) ← p.matchToken .kVar
          if m then varDeclaration fuel p
          else statement fuel p

/-- The parameter-list loop of `Parser::function_declaration`
(`if !match_token(Comma) break` — parameters continue while commas are
consumed). -/
def paramLoop (fuel : Nat) (acc : List Token) (p : PState) : Option (Except Unit (List Token) × PState) :=
  match fuel with
  | 0 => none
  | fuel + 1 => do
      let tok ← p.peek?
      if tok.ttype ≠ .rightParen then
        let p := if 255 ≤ acc.length then
            { p with ec := p.ec.tokenError tok "Cannot have more than 255 parameters." }
          else p
        pbind (p.consume .identifier "Expect parameter name.") fun param p => do
          let (m, p) ← p.matchToken .comma
          if !m then pure (.ok (acc ++ [param]), p)
          else paramLoop fuel (acc ++ [param]) p
      else pure (.ok acc, p)

/-- `Parser::function_declaration`. -/
def functionDeclaration (fuel : Nat) (kind : String) (p : PState) : Option (Except Unit Stmt × PState) :=
  match fuel with
  | 0 => none
  | fuel + 1 =>
      pbind (p.consume .identifier ("Expect " ++ kind ++ " name.")) fun name p =>
      pbind (p.consume .leftParen ("Expect " ++ squote ++ "(" ++ squote ++
        " before parameters.")) fun _ p =>
      pbind (paramLoop fuel [] p) fun parameters p =>
      pbind (p.consume .rightParen ("Expect " ++ squote ++ ")" ++ squote ++
        " after parameters.")) fun _ p =>
      pbind (p.consume .leftBrace ("Expect " ++ squote ++ String.singleton lbraceChar ++
        squote ++ " after parameters.")) fun _ p =>
      pbind (block fuel p) fun body p =>
      some (.ok (.functionS name parameters body), p)

/-- The method loop of `Parser::class_declaration`. -/
def methodLoop (fuel : Nat) (acc : List Stmt) (p : PState) : Option (Except Unit (List Stmt) × PState) :=
  match fuel with
  | 0 => none
  | fuel + 1 => do
      let atEnd ← p.isAtEnd?
      let tok ← p.peek?
      if !atEnd && tok.ttype ≠ .rightBrace then
        pbind (functionDeclaration fuel "method" p) fun m p =>
          methodLoop fuel (acc ++ [m]) p
      else pure (.ok acc, p)

/-- `Parser::class_declaration`. -/
def classDeclaration (fuel : Nat) (p : PState) : Option (Except Unit Stmt × PState) :=
  match fuel with
  | 0 => none
  | fuel + 1 =>
      pbind (p.consume .identifier "Expect class name.") fun name p => do
      let (m, p) ← p.matchToken .less
      let withSuper := fun (superClass : Option Expr) (p : PState) =>
        pbind (p.consume .leftBrace ("Expect " ++ squote ++ String.singleton lbraceChar ++
          squote ++ " after class name.")) fun _ p =>
        pbind (methodLoop fuel [] p) fun methods p =>
        pbind (p.consume .rightBrace ("Expect " ++ squote ++ String.singleton rbraceChar ++
          squote ++ " after class body.")) fun _ p =>
        some (.ok (.classS name superClass methods), p)
      if m then
        pbind (p.consume .identifier "Expect super class name.") fun superName p =>
          withSuper (some (.varE superName LateCell.new)) p
      else withSuper none p

/-- `Parser::var_declaration`. -/
def varDeclaration (fuel : Nat) (p : PState) : Option (Except Unit Stmt × PState) :=
  match fuel with
  | 0 => none
  | fuel + 1 =>
      pbind (p.consume .identifier "Expect variable name.") fun name p => do
      let (m, p) ← p.matchToken .equal
      let finish := fun (ini : Option Expr) (p : PState) =>
        pbind (p.consume .semicolon ("Expect " ++ squote ++ ";" ++ squote ++
          " after variable declaration.")) fun _ p =>
        some (.ok (.varS name ini), p)
      if m then pbind (expression fuel p) fun e p => finish (some e) p
      else finish none p

/-- `Parser::statement`. -/
def statement (fuel : Nat) (p : PState) : Option (Except Unit Stmt × PState) :=
  match fuel with
  | 0 => none
  | fuel + 1 => do
      let (m, p) ← p.matchToken .leftBrace
      if m then
        pbind (block fuel p) fun stmts p => some (.ok (.block stmts), p)
      else do
        let (m, p) ← p.matchToken .kPrint
        if m then printStmt fuel p
        else do
          let (m, p) ← p.matchToken .kIf
          if m then ifStmt fuel p
          else do
            let (m, p) ← p.matchToken .kWhile
            if m then whileStmt fuel p
            else do
              let (m, p) ← p.matchToken .kFor
              if m then forStmt fuel p
              else do
                let (m, p) ← p.matchToken .kReturn
                if m then returnStmt fuel p
                else expressionStmt fuel p

/-- The statement loop of `Parser::block`. -/
def blockLoop (fuel : Nat) (acc : List Stmt) (p : PState) : Option (Except Unit (List Stmt) × PState) :=
  match fuel with
  | 0 => none
  | fuel + 1 => do
      let tok ← p.peek?
      if tok.ttype ≠ .rightBrace && tok.ttype ≠ .eof then
        pbind (declaration fuel p) fun s p => blockLoop fuel (acc ++ [s]) p
      else pure (.ok acc, p)

/-- `Parser::block`. -/
def block (fuel : Nat) (p : PState) : Option (Except Unit (List Stmt) × PState) :=
  match fuel with
  | 0 => none
  | fuel + 1 =>
      pbind (blockLoop fuel [] p) fun stmts p =>
      pbind (p.consume .rightBrace ("Expect " ++ squote ++ String.singleton rbraceChar ++
        squote ++ " after statement block.")) fun _ p =>
      some (.ok stmts, p)

/-- `Parser::print_stmt`. -/
def printStmt (fuel : Nat) (p : PState) : Option (Except Unit Stmt × PState) :=
  match fuel with
  | 0 => none
  | fuel + 1 =>
      pbind (expression fuel p) fun e p =>
      pbind (p.consume .semicolon ("Expect " ++ squote ++ ";" ++ squote ++
        " after print statement.")) fun _ p =>
      some (.ok (.printS e), p)

/-- `Parser::if_stmt`. -/
def ifStmt (fuel : Nat) (p : PState) : Option (Except Unit Stmt × PState) :=
  match fuel with
  | 0 => none
  | fuel + 1 =>
      pbind (p.consume .leftParen ("Expect " ++ squote ++ "(" ++ squote ++
        " before if condition.")) fun _ p =>
      pbind (expression fuel p) fun cond p =>
      pbind (p.consume .rightParen ("Expect " ++ squote ++ ")" ++ squote ++
        " before if condition.")) fun _ p =>
      pbind (statement fuel p) fun thenS p => do
      let (m, p) ← p.matchToken .kElse
      if m then
        pbind (statement fuel p) fun elseS p =>
          some (.ok (.ifS cond thenS (some elseS)), p)
      else some (.ok (.ifS cond thenS none), p)

/-- `Parser::while_stmt`. -/
def whileStmt (fuel : Nat) (p : PState) : Option (Except Unit Stmt × PState) :=
  match fuel with
  | 0 => none
  | fuel + 1 =>
      pbind (p.consume .leftParen ("Expect " ++ squote ++ "(" ++ squote ++
        " before while condition.")) fun _ p =>
      pbind (expression fuel p) fun cond p =>
      pbind (p.consume .rightParen ("Expect " ++ squote ++ ")" ++ squote ++
        " before while condition.")) fun _ p =>
      pbind (statement fuel p) fun body p =>
      some (.ok (.whileS cond body), p)

/-- `Parser::for_stmt`, including the desugaring into `block`/`while`. -/
def forStmt (fuel : Nat) (p : PState) : Option (Except Unit Stmt × PState) :=
  match fuel with
  | 0 => none
  | fuel + 1 =>
      pbind (p.consume .leftParen ("Expect " ++ squote ++ "(" ++ squote ++
        " before for initializer.")) fun _ p => do
      let initPart : Option (Except Unit (Option Stmt) × PState) := do
        let (m, p) ← p.matchToken .semicolon
        if m then pure (.ok none, p)
        else do
          let (m, p) ← p.matchToken .kVar
          if m then pbind (varDeclaration fuel p) fun s p => pure (.ok (some s), p)
          else pbind (expressionStmt fuel p) fun s p => pure (.ok (some s), p)
      pbind initPart fun ini p => do
      let condPart : Option (Except Unit Expr × PState) := do
        let (m, p) ← p.matchToken .semicolon
        if m then pure (.ok (.literal (.bool true)), p)
        else
          pbind (expression fuel p) fun e p =>
          pbind (p.consume .semicolon ("Expect " ++ squote ++ ";" ++ squote ++
            " after for condition.")) fun _ p =>
          pure (.ok e, p)
      pbind condPart fun cond p => do
      let incPart : Option (Except Unit (Option Expr) × PState) := do
        let (m, p) ← p.matchToken .rightParen
        if m then pure (.ok none, p)
        else
          pbind (expression fuel p) fun e p =>
          pbind (p.consume .rightParen ("Expect " ++ squote ++ ")" ++ squote ++
            " after for increment.")) fun _ p =>
          pure (.ok (some e), p)
      pbind incPart fun inc p =>
      pbind (statement fuel p) fun body p =>
      let body := match inc with
        | some e => Stmt.block [body, .expression e]
        | none => body
      let body := Stmt.whileS cond body
      let body := match ini with
        | some s => Stmt.block [s, body]
        | none => body
      some (.ok body, p)

/-- `Parser::return_stmt`. -/
def returnStmt (fuel : Nat) (p : PState) : Option (Except Unit Stmt × PState) :=
  match fuel with
  | 0 => none
  | fuel + 1 => do
      let token ← p.previous?
      let (m, p) ← p.matchToken .semicolon
      if m then some (.ok (.returnS token none), p)
      else
        pbind (expression fuel p) fun e p =>
        pbind (p.consume .semicolon ("Expect " ++ squote ++ ";" ++ squote ++
          " after return value.")) fun _ p =>
        some (.ok (.returnS token (some e)), p)

/-- `Parser::expression_stmt`. -/
def expressionStmt (fuel : Nat) (p : PState) : Option (Except Unit Stmt × PState) :=
  match fuel with
  | 0 => none
  | fuel + 1 =>
      pbind (expression fuel p) fun e p =>
      pbind (p.consume .semicolon ("Expect " ++ squote ++ ";" ++ squote ++
        " after expression statement.")) fun _ p =>
      some (.ok (.expression e), p)

/-- `Parser::expression`. -/
def expression (fuel : Nat) (p : PState) : Option (Except Unit Expr × PState) :=
  match fuel with
  | 0 => none
  | fuel + 1 => assignExpr fuel p

/-- `Parser::assign_expr`. -/
def assignExpr (fuel : Nat) (p : PState) : Option (Except Unit Expr × PState) :=
  match fuel with
  | 0 => none
  | fuel + 1 =>
      pbind (orExpr fuel p) fun e p => do
      let (m, p) ← p.matchToken .equal
      if m then
        pbind (assignExpr fuel p) fun value p =>
          match e with
          | .varE name _ => some (.ok (.assign name value LateCell.new), p)
          | .getE obj name => some (.ok (.setE obj name value), p)
          | _ => do
              let tok ← p.peek?
              p.error tok "Expect assignment to variable or property."
      else some (.ok e, p)

/-- The `or` loop of `Parser::or_expr`. -/
def orLoop (fuel : Nat) (e : Expr) (p : PState) : Option (Except Unit Expr × PState) :=
  match fuel with
  | 0 => none
  | fuel + 1 => do
      let (m, p) ← p.matchToken .kOr
      if m then do
        let op ← p.previous?
        pbind (andExpr fuel p) fun r p => orLoop fuel (.condition e op r) p
      else some (.ok e, p)

/-- `Parser::or_expr`. -/
def orExpr (fuel : Nat) (p : PState) : Option (Except Unit Expr × PState) :=
  match fuel with
  | 0 => none
  | fuel + 1 => pbind (andExpr fuel p) fun e p => orLoop fuel e p

/-- The `and` loop of `Parser::and_expr`. -/
def andLoop (fuel : Nat) (e : Expr) (p : PState) : Option (Except Unit Expr × PState) :=
  match fuel with
  | 0 => none
  | fuel + 1 => do
      let (m, p) ← p.matchToken .kAnd
      if m then do
        let op ← p.previous?
        pbind (equalityExpr fuel p) fun r p => andLoop fuel (.condition e op r) p
      else some (.ok e, p)

/-- `Parser::and_expr`. -/
def andExpr (fuel : Nat) (p : PState) : Option (Except Unit Expr × PState) :=
  match fuel with
  | 0 => none
  | fuel + 1 => pbind (equalityExpr fuel p) fun e p => andLoop fuel e p

/-- One step of matching one of two token kinds, short-circuit like
`match_token(a) || match_token(b)`. -/
def matchEither (p : PState) (a b : TokenType) : Option (Bool × PState) := do
  let (m, p) ← p.matchToken a
  if m then pure (true, p) else p.matchToken b

/-- The loop of `Parser::equality_expr`. -/
def equalityLoop (fuel : Nat) (e : Expr) (p : PState) : Option (Except Unit Expr × PState) :=
  match fuel with
  | 0 => none
  | fuel + 1 => do
      let (m, p) ← matchEither p .equalEqual .bangEqual
      if m then do
        let op ← p.previous?
        pbind (comparisonExpr fuel p) fun r p => equalityLoop fuel (.binary e op r) p
      else some (.ok e, p)

/-- `Parser::equality_expr`. -/
def equalityExpr (fuel : Nat) (p : PState) : Option (Except Unit Expr × PState) :=
  match fuel with
  | 0 => none
  | fuel + 1 => pbind (comparisonExpr fuel p) fun e p => equalityLoop fuel e p

/-- The four-way match of `Parser::comparison_expr`'s loop condition. -/
def matchComparison (p : PState) : Option (Bool × PState) := do
  let (m, p) ← matchEither p .less .lessEqual
  if m then pure (true, p) else matchEither p .greater .greaterEqual

/-- The loop of `Parser::comparison_expr`. -/
def comparisonLoop (fuel : Nat) (e : Expr) (p : PState) : Option (Except Unit Expr × PState) :=
  match fuel with
  | 0 => none
  | fuel + 1 => do
      let (m, p) ← matchComparison p
      if m then do
        let op ← p.previous?
        pbind (sumExpr fuel p) fun r p => comparisonLoop fuel (.binary e op r) p
      else some (.ok e, p)

/-- `Parser::comparison_expr`. -/
def comparisonExpr (fuel : Nat) (p : PState) : Option (Except Unit Expr × PState) :=
  match fuel with
  | 0 => none
  | fuel + 1 => pbind (sumExpr fuel p) fun e p => comparisonLoop fuel e p

/-- The loop of `Parser::sum_expr`. -/
def sumLoop (fuel : Nat) (e : Expr) (p : PState) : Option (Except Unit Expr × PState) :=
  match fuel with
  | 0 => none
  | fuel + 1 => do
      let (m, p) ← matchEither p .plus .minus
      if m then do
        let op ← p.previous?
        pbind (factorExpr fuel p) fun r p => sumLoop fuel (.binary e op r) p
      else some (.ok e, p)

/-- `Parser::sum_expr`. -/
def sumExpr (fuel : Nat) (p : PState) : Option (Except Unit Expr × PState) :=
  match fuel with
  | 0 => none
  | fuel + 1 => pbind (factorExpr fuel p) fun e p => sumLoop fuel e p

/-- The loop of `Parser::factor_expr`. -/
def factorLoop (fuel : Nat) (e : Expr) (p : PState) : Option (Except Unit Expr × PState) :=
  match fuel with
  | 0 => none
  | fuel + 1 => do
      let (m, p) ← matchEither p .slash .star
      if m then do
        let op ← p.previous?
        pbind (unaryExpr fuel p) fun r p => factorLoop fuel (.binary e op r) p
      else some (.ok e, p)

/-- `Parser::factor_expr`. -/
def factorExpr (fuel : Nat) (p : PState) : Option (Except Unit Expr × PState) :=
  match fuel with
  | 0 => none
  | fuel + 1 => pbind (unaryExpr fuel p) fun e p => factorLoop fuel e p

/-- `Parser::unary_expr`. -/
def unaryExpr (fuel : Nat) (p : PState) : Option (Except Unit Expr × PState) :=
  match fuel with
  | 0 => none
  | fuel + 1 => do
      let (m, p) ← matchEither p .bang .minus
      if m then do
        let op ← p.previous?
        pbind (unaryExpr fuel p) fun e p => some (.ok (.unary op e), p)
      else groupingExpr fuel p

/-- `Parser::grouping_expr`. -/
def groupingExpr (fuel : Nat) (p : PState) : Option (Except Unit Expr × PState) :=
  match fuel with
  | 0 => none
  | fuel + 1 => do
      let (m, p) ← p.matchToken .leftParen
      if m then
        pbind (expression fuel p) fun e p =>
        pbind (p.consume .rightParen ("Expect " ++ squote ++ ")" ++ squote ++
          " after grouping expression")) fun _ p =>
        some (.ok (.grouping e), p)
      else callExpr fuel p

/-- The call/property loop of `Parser::call_expr`. -/
def callLoop (fuel : Nat) (e : Expr) (p : PState) : Option (Except Unit Expr × PState) :=
  match fuel with
  | 0 => none
  | fuel + 1 => do
      let (m, p) ← p.matchToken .leftParen
      if m then pbind (finishCallExpr fuel e p) fun e p => callLoop fuel e p
      else do
        let (m, p) ← p.matchToken .dot
        if m then
          pbind (p.consume .identifier ("Expect property name after " ++ squote ++
            "." ++ squote ++ ".")) fun name p =>
          callLoop fuel (.getE e name) p
        else some (.ok e, p)

/-- `Parser::call_expr`. -/
def callExpr (fuel : Nat) (p : PState) : Option (Except Unit Expr × PState) :=
  match fuel with
  | 0 => none
  | fuel + 1 => pbind (primaryExpr fuel p) fun e p => callLoop fuel e p

/-- The argument loop of `Parser::finish_call_expr`.  Note the control flow
taken verbatim from the source: after an argument, `if match_token(Comma)
BREAK` — matching a comma leaves the loop. -/
def argLoop (fuel : Nat) (acc : List Expr) (p : PState) : Option (Except Unit (List Expr) × PState) :=
  match fuel with
  | 0 => none
  | fuel + 1 => do
      let tok ← p.peek?
      if tok.ttype = .rightParen then pure (.ok acc, p)
      else
        let p := if 255 ≤ acc.length then
            { p with ec := p.ec.tokenError tok "Cannot have more than 255 arguments." }
          else p
        pbind (expression fuel p) fun arg p => do
          let (m, p) ← p.matchToken .comma
          if m then pure (.ok (acc ++ [arg]), p)
          else argLoop fuel (acc ++ [arg]) p

/-- `Parser::finish_call_expr`. -/
def finishCallExpr (fuel : Nat) (callee : Expr) (p : PState) : Option (Except Unit Expr × PState) :=
  match fuel with
  | 0 => none
  | fuel + 1 =>
      pbind (argLoop fuel [] p) fun args p =>
      pbind (p.consume .rightParen ("Expect " ++ squote ++ ")" ++ squote ++
        " after arguments.")) fun paren p =>
      some (.ok (.call callee paren args), p)

/-- `Parser::primary_expr`. -/
def primaryExpr (fuel : Nat) (p : PState) : Option (Except Unit Expr × PState) :=
  match fuel with
  | 0 => none
  | _ + 1 => do
      let (m, p) ← p.matchToken .kNil
      if m then some (.ok (.literal .nil), p)
      else do
        let (m, p) ← p.matchToken .kTrue
        if m then some (.ok (.literal (.bool true)), p)
        else do
          let (m, p) ← p.matchToken .kFalse
          if m then some (.ok (.literal (.bool false)), p)
          else do
            let (m, p) ← matchEither p .number .string
            if m then do
              let prev ← p.previous?
              let lit ← prev.literal
              some (.ok (.literal lit), p)
            else do
              let (m, p) ← p.matchToken .identifier
              if m then do
                let prev ← p.previous?
                some (.ok (.varE prev LateCell.new), p)
              else do
                let (m, p) ← p.matchToken .kThis
                if m then do
                  let prev ← p.previous?
                  some (.ok (.thisE prev LateCell.new), p)
                else do
                  let (m, p) ← p.matchToken .kSuper
                  if m then do
                    let keyword ← p.previous?
                    pbind (p.consume .dot ("Expect " ++ squote ++ "." ++ squote ++
                      " after super.")) fun _ p =>
                    pbind (p.consume .identifier "Expect super method.") fun method p =>
                    some (.ok (.superE keyword method LateCell.new), p)
                  else do
                    let tok ← p.peek?
                    p.error tok "Expected expression."

end

/-- The loop of `Parser::parse` (`try_declaration` + `synchronize`). -/
def parseLoop (fuel : Nat) (acc : List Stmt) (p : PState) : Option (List Stmt × PState) :=
  match fuel with
  | 0 => none
  | fuel + 1 => do
      let atEnd ← p.isAtEnd?
      if atEnd then pure (acc, p)
      else
        match declaration fuel p with
        | none => none
        | some (.ok s, p) => parseLoop fuel (acc ++ [s]) p
        | some (.error _, p) => do
            let p ← p.synchronize
            parseLoop fuel acc p

/-- `Parser::parse` over a token list (the fuel is derived from the input
size; every loop either consumes a token or returns). -/
def parseProgram (tokens : List Token) (ec : EC) : Option (List Stmt × EC) := do
  let p : PState := { tokens := tokens, current := 0, ec := ec }
  let (stmts, p) ← parseLoop (tokens.length * 8 + 64) [] p
  pure (stmts, p.ec)

end TreeLox

namespace TreeLox

/-- Number of arguments of a parsed top-level call statement. -/
def callArgCount : Stmt → Option Nat
  | .expression (.call _ _ args) => some args.length
  | _ => none

/-- Scan then parse a source string, reporting the parsed statements and the
collector. -/
def scanAndParse (source : String) : Option (List Stmt × EC) :=
  let (toks, ec) := scanTokens source.toList EC.fresh
  parseProgram toks ec

end TreeLox

open TreeLox in
/-- C1: the parser does NOT continue consuming arguments while commas are
matched.  `finish_call_expr` breaks out of its loop as soon as a comma is
consumed, so the two-argument call `f(1, 2);` is a parse error — the parser
reports `Expect ')' after arguments.` at `2` and the declaration is dropped
— while the one-argument call `f(1);` parses into a single Call node with
one argument.  This theorem evaluates the parser at the failing input. -/
theorem c1_two_argument_call_rejected :
    (scanAndParse "f(1, 2);").map (fun r => (r.1.length, r.2)) =
      some (0,
        { out := ["[line 1] Error at " ++ squote ++ "2" ++ squote ++
            ": Expect " ++ squote ++ ")" ++ squote ++ " after arguments."],
          hadError := true, hadRuntimeError := false }) ∧
    (scanAndParse "f(1);").map (fun r => (r.1.map callArgCount, r.2.hadError)) =
      some ([some 1], false) := by
  exact ⟨by decide, by decide⟩

namespace TreeLox

/-- Association-list update modeling `HashMap::insert`. -/
def alSet {α : Type} (l : List (String × α)) (k : String) (v : α) : List (String × α) :=
  if l.any (fun kv => kv.1 = k) then
    l.map (fun kv => if kv.1 = k then (k, v) else kv)
  else l ++ [(k, v)]

/-- Association-list lookup modeling `HashMap::get`. -/
def alGet {α : Type} (l : List (String × α)) (k : String) : Option α :=
  (l.find? (fun kv => kv.1 = k)).map (fun kv => kv.2)

/-- `HashMap::contains_key`. -/
def alHas {α : Type} (l : List (String × α)) (k : String) : Bool :=
  l.any (fun kv => kv.1 = k)

/-- `enum FunctionType` of `src/src/resolver.rs` (`Initialize` is renamed
`initializer`). -/
inductive FunctionType where
  | none | function | initializer | method
  deriving DecidableEq, Repr

/-- `enum ClassType`. -/
inductive ClassType where
  | none | classT | subClass
  deriving DecidableEq, Repr

/-- A resolver scope: `name -> defined?`. -/
abbrev RScope := List (String × Bool)

/-- Resolver state (`struct Resolver`); `scopes` keeps the innermost scope
at the head (the Rust `Vec` pushes at the end and searches `.rev()`). -/
structure RState where
  scopes : List RScope
  functionType : FunctionType
  classType : ClassType
  ec : EC

/-- `Resolver::begin_scope`. -/
def RState.beginScope (st : RState) : RState := { st with scopes := [] :: st.scopes }

/-- `Resolver::end_scope`. -/
def RState.endScope (st : RState) : RState := { st with scopes := st.scopes.tail }

/-- `Resolver::declare`. -/
def RState.declare (st : RState) (name : Token) : RState :=
  match st.scopes with
  | [] => st
  | scope :: rest =>
      let st :=
        if alHas scope name.lexeme then
          let msg := "Already a variable with this name in this scope."
          { st with ec := st.ec.tokenError name msg }
        else st
      { st with scopes := alSet scope name.lexeme false :: rest }

/-- `Resolver::define`. -/
def RState.define (st : RState) (name : Token) : RState :=
  match st.scopes with
  | [] => st
  | scope :: rest => { st with scopes := alSet scope name.lexeme true :: rest }

/-- `Resolver::resolve_local_scope_index`: the first scope (innermost
outward) containing the name fixes the depth. -/
def RState.resolveLocal (st : RState) (name : Token) : Option Nat :=
  st.scopes.findIdx? (fun scope => alHas scope name.lexeme)

/-- The source-verbatim message of the own-initializer error (including its
typo `it's`). -/
def ownInitializerMsg : String :=
  "Can" ++ squote ++ "t read local variable in it" ++ squote ++ "s own initializer."

mutual

/-- `ExprVisitor for Resolver` (`src/src/resolver.rs`): the in-place
`Late::set` writes become a rebuild of the node; a double write (or an
`as_function`/`as_variable` panic) is `none`. -/
def resolveExpr (e : Expr) (st : RState) : Option (Expr × RState) :=
  match e with
  | .literal v => some (.literal v, st)
  | .varE name slot => do
      let st :=
        match st.scopes with
        | scope :: _ =>
            match alGet scope name.lexeme with
            | some false => { st with ec := st.ec.tokenError name ownInitializerMsg }
            | _ => st
        | [] => st
      let slot ← slot.set (st.resolveLocal name)
      some (.varE name slot, st)
  | .assign name value slot => do
      let (value, st) ← resolveExpr value st
      let slot ← slot.set (st.resolveLocal name)
      some (.assign name value slot, st)
  | .unary op e => do
      let (e, st) ← resolveExpr e st
      some (.unary op e, st)
  | .binary l op r => do
      let (l, st) ← resolveExpr l st
      let (r, st) ← resolveExpr r st
      some (.binary l op r, st)
  | .condition l op r => do
      let (l, st) ← resolveExpr l st
      let (r, st) ← resolveExpr r st
      some (.condition l op r, st)
  | .grouping e => do
      let (e, st) ← resolveExpr e st
      some (.grouping e, st)
  | .call callee paren args => do
      let (callee, st) ← resolveExpr callee st
      let (args, st) ← resolveExprList args st
      some (.call callee paren args, st)
  | .getE obj name => do
      let (obj, st) ← resolveExpr obj st
      some (.getE obj name, st)
  | .setE obj name value => do
      let (obj, st) ← resolveExpr obj st
      let (value, st) ← resolveExpr value st
      some (.setE obj name value, st)
  | .thisE token slot =>
      match st.classType with
      | .classT | .subClass => do
          let slot ← slot.set (st.resolveLocal token)
          some (.thisE token slot, st)
      | .none =>
          let msg := "Can" ++ squote ++ "t use " ++ squote ++ "this" ++ squote ++
            " outside of a class."
          some (.thisE token slot, { st with ec := st.ec.tokenError token msg })
  | .superE keyword method slot => do
      let st :=
        match st.classType with
        | .none =>
            { st with ec := st.ec.tokenError keyword "Cannot use super outside of a class." }
        | .classT =>
            let msg := "Cannot use super in a class that is not a sub class."
            { st with ec := st.ec.tokenError keyword msg }
        | .subClass => st
      let slot ← slot.set (st.resolveLocal keyword)
      some (.superE keyword method slot, st)


/-- Resolve an argument list (`visit_call_expr`'s loop). -/
def resolveExprList (es : List Expr) (st : RState) : Option (List Expr × RState) :=
  match es with
  | [] => some ([], st)
  | e :: rest => do
      let (e, st) ← resolveExpr e st
      let (rest, st) ← resolveExprList rest st
      some (e :: rest, st)


/-- `StmtVisitor for Resolver`. -/
def resolveStmt (s : Stmt) (st : RState) : Option (Stmt × RState) :=
  match s with
  | .expression e => do
      let (e, st) ← resolveExpr e st
      some (.expression e, st)
  | .block stmts => do
      let (stmts, st) ← resolveStmtList stmts st.beginScope
      some (.block stmts, st.endScope)
  | .varS name ini => do
      let st := st.declare name
      let (ini, st) ←
        match ini with
        | some e => do
            let (e, st) ← resolveExpr e st
            some (some e, st)
        | none => some (none, st)
      some (.varS name ini, st.define name)
  | .functionS name parameters body => do
      let st := (st.declare name).define name
      let (body, st) ← resolveFunction parameters body .function st
      some (.functionS name parameters body, st)
  | .classS name superClass methods => do
      let outerClassType := st.classType
      let st := { st with classType := .classT }
      let st := (st.declare name).define name
      let (superClass, st) ←
        match superClass with
        | some superExpr => do
            let st := { st with classType := .subClass }
            match superExpr with
            | .varE superName _ => do
                let st :=
                  if name.lexeme = superName.lexeme then
                    { st with ec := st.ec.tokenError superName "Class cannot extend itself." }
                  else st
                let (superExpr, st) ← resolveExpr superExpr st
                let st := st.beginScope
                let st :=
                  match st.scopes with
                  | scope :: rest => { st with scopes := alSet scope "super" true :: rest }
                  | [] => st
                some (some superExpr, st)
            | _ => none
        | none => some (none, st)
      let (methods, st) ← resolveMethodList methods st
      let st := if superClass.isSome then st.endScope else st
      some (.classS name superClass methods, { st with classType := outerClassType })
  | .printS e => do
      let (e, st) ← resolveExpr e st
      some (.printS e, st)
  | .ifS cond thenS elseS => do
      let (cond, st) ← resolveExpr cond st
      let (thenS, st) ← resolveStmt thenS st
      let (elseS, st) ←
        match elseS with
        | some s => do
            let (s, st) ← resolveStmt s st
            some (some s, st)
        | none => some (none, st)
      some (.ifS cond thenS elseS, st)
  | .whileS cond body => do
      let (cond, st) ← resolveExpr cond st
      let (body, st) ← resolveStmt body st
      some (.whileS cond body, st)
  | .returnS token value => do
      let st :=
        match st.functionType with
        | .none =>
            let msg := "Can" ++ squote ++ "t return from top level code."
            { st with ec := st.ec.tokenError token msg }
        | .initializer =>
            if value.isSome then
              let msg := "Can" ++ squote ++ "t return value from initializer."
              { st with ec := st.ec.tokenError token msg }
            else st
        | _ => st
      let (value, st) ←
        match value with
        | some e => do
            let (e, st) ← resolveExpr e st
            some (some e, st)
        | none => some (none, st)
      some (.returnS token value, st)


/-- The statement loop shared by `resolve`, blocks and function bodies. -/
def resolveStmtList (ss : List Stmt) (st : RState) : Option (List Stmt × RState) :=
  match ss with
  | [] => some ([], st)
  | s :: rest => do
      let (s, st) ← resolveStmt s st
      let (rest, st) ← resolveStmtList rest st
      some (s :: rest, st)


/-- `Resolver::resolve_function`. -/
def resolveFunction (parameters : List Token) (body : List Stmt)
    (functionType : FunctionType) (st : RState) : Option (List Stmt × RState) := do
  let outer := st.functionType
  let st := { st with functionType := functionType }
  let st := st.beginScope
  let st := parameters.foldl (fun st p => (st.declare p).define p) st
  let (body, st) ← resolveStmtList body st
  let st := st.endScope
  some (body, { st with functionType := outer })


/-- The method loop of `visit_class_stmt`: each method opens a scope holding
`this` and resolves as `Initialize` (for `init`) or `Method`;
`Stmt::as_function` on a non-function is a panic. -/
def resolveMethodList (methods : List Stmt) (st : RState) : Option (List Stmt × RState) :=
  match methods with
  | [] => some ([], st)
  | m :: rest => do
      match m with
      | .functionS mname mparams mbody => do
          let st := st.beginScope
          let st :=
            match st.scopes with
            | scope :: scs => { st with scopes := alSet scope "this" true :: scs }
            | [] => st
          let ftype : FunctionType :=
            if mname.lexeme = "init" then .initializer else .method
          let (mbody, st) ← resolveFunction mparams mbody ftype st
          let st := st.endScope
          let (rest, st) ← resolveMethodList rest st
          some (.functionS mname mparams mbody :: rest, st)
      | _ => none

end

/-- `Resolver::resolve` (`Resolver::new` + the top-level loop). -/
def resolveProgram (statements : List Stmt) (ec : EC) : Option (List Stmt × EC) := do
  let st : RState := { scopes := [], functionType := .none, classType := .none, ec := ec }
  let (statements, st) ← resolveStmtList statements st
  some (statements, st.ec)

end TreeLox

namespace TreeLox

/-- A slot that has never been written (as the parser creates it). -/
def slotFresh (c : Slot) : Bool := c.value.isNone

/-- A slot that has been written. -/
def slotWritten (c : Slot) : Bool := c.value.isSome

mutual

/-- All scope-depth slots in the expression are unwritten — the state of
every node built by the parser. -/
def freshExpr : Expr → Bool
  | .literal _ => true
  | .varE _ slot => slotFresh slot
  | .assign _ value slot => slotFresh slot && freshExpr value
  | .unary _ e => freshExpr e
  | .binary l _ r => freshExpr l && freshExpr r
  | .condition l _ r => freshExpr l && freshExpr r
  | .grouping e => freshExpr e
  | .call callee _ args => freshExpr callee && freshExprList args
  | .getE obj _ => freshExpr obj
  | .setE obj _ value => freshExpr obj && freshExpr value
  | .thisE _ slot => slotFresh slot
  | .superE _ _ slot => slotFresh slot

def freshExprList : List Expr → Bool
  | [] => true
  | e :: rest => freshExpr e && freshExprList rest

/-- All slots unwritten, and the shape invariants the parser guarantees: a
class's superclass is a variable expression and its members are function
statements. -/
def freshStmt : Stmt → Bool
  | .expression e => freshExpr e
  | .block ss => freshStmtList ss
  | .varS _ ini => freshOptExpr ini
  | .functionS _ _ body => freshStmtList body
  | .classS _ superClass methods =>
      (match superClass with
        | some (.varE _ slot) => slotFresh slot
        | some _ => false
        | none => true) && freshMethodList methods
  | .printS e => freshExpr e
  | .ifS cond thenS elseS =>
      freshExpr cond && freshStmt thenS &&
        (match elseS with | some s => freshStmt s | none => true)
  | .whileS cond body => freshExpr cond && freshStmt body
  | .returnS _ value => freshOptExpr value

def freshOptExpr : Option Expr → Bool
  | some e => freshExpr e
  | none => true

def freshStmtList : List Stmt → Bool
  | [] => true
  | s :: rest => freshStmt s && freshStmtList rest

def freshMethodList : List Stmt → Bool
  | [] => true
  | .functionS _ _ body :: rest => freshStmtList body && freshMethodList rest
  | _ :: _ => false

end

mutual

/-- Every variable/`this`/`super` (and assign) scope-depth slot in the
expression has been written. -/
def annExpr : Expr → Bool
  | .literal _ => true
  | .varE _ slot => slotWritten slot
  | .assign _ value slot => slotWritten slot && annExpr value
  | .unary _ e => annExpr e
  | .binary l _ r => annExpr l && annExpr r
  | .condition l _ r => annExpr l && annExpr r
  | .grouping e => annExpr e
  | .call callee _ args => annExpr callee && annExprList args
  | .getE obj _ => annExpr obj
  | .setE obj _ value => annExpr obj && annExpr value
  | .thisE _ slot => slotWritten slot
  | .superE _ _ slot => slotWritten slot

def annExprList : List Expr → Bool
  | [] => true
  | e :: rest => annExpr e && annExprList rest

def annStmt : Stmt → Bool
  | .expression e => annExpr e
  | .block ss => annStmtList ss
  | .varS _ ini => annOptExpr ini
  | .functionS _ _ body => annStmtList body
  | .classS _ superClass methods =>
      (match superClass with
        | some e => annExpr e
        | none => true) && annStmtList methods
  | .printS e => annExpr e
  | .ifS cond thenS elseS =>
      annExpr cond && annStmt thenS &&
        (match elseS with | some s => annStmt s | none => true)
  | .whileS cond body => annExpr cond && annStmt body
  | .returnS _ value => annOptExpr value

def annOptExpr : Option Expr → Bool
  | some e => annExpr e
  | none => true

def annStmtList : List Stmt → Bool
  | [] => true
  | s :: rest => annStmt s && annStmtList rest

end

/-- Reporting a static error always raises the error flag. -/
theorem EC.tokenError_hadError (ec : EC) (t : Token) (m : String) :
    (ec.tokenError t m).hadError = true := by
  unfold EC.tokenError EC.reportStaticError
  split <;> rfl

/-- Reporting a static error never lowers the flag; conversely a clean flag
after reporting means the flag was clean before (vacuously: it never is). -/
theorem EC.tokenError_mono (ec : EC) (t : Token) (m : String) :
    (ec.tokenError t m).hadError = false → ec.hadError = false := by
  intro h
  rw [EC.tokenError_hadError] at h
  exact absurd h (by simp)

/-- `declare` leaves the collector's flag clean only if it was clean. -/
theorem RState.declare_mono (st : RState) (name : Token) :
    (st.declare name).ec.hadError = false → st.ec.hadError = false := by
  unfold RState.declare
  match h : st.scopes with
  | [] => simp
  | scope :: rest =>
      by_cases hc : alHas scope name.lexeme = true
      · simp only [hc, if_pos]
        intro hfalse
        exact EC.tokenError_mono _ _ _ hfalse
      · simp only [hc]
        simp

/-- `define` does not touch the collector. -/
theorem RState.define_ec (st : RState) (name : Token) :
    (st.define name).ec = st.ec := by
  unfold RState.define
  match st.scopes with
  | [] => rfl
  | scope :: rest => rfl

/-- The parameter fold of `resolve_function` leaves the flag clean only if
it was clean. -/
theorem foldl_declareDefine_mono (params : List Token) (st : RState) :
    (params.foldl (fun st p => (st.declare p).define p) st).ec.hadError = false →
      st.ec.hadError = false := by
  induction params generalizing st with
  | nil => simp [List.foldl]
  | cons p rest ih =>
      intro h
      have h1 := ih _ h
      rw [RState.define_ec] at h1
      exact RState.declare_mono _ _ h1

end TreeLox

namespace TreeLox

/-- Writing a fresh slot succeeds and fills it. -/
theorem slotFresh_set (c : Slot) (v : Option Nat) (h : slotFresh c = true) :
    c.set v = some ⟨some v⟩ := by
  unfold LateCell.set
  cases hc : c.value with
  | some w => rw [slotFresh, hc] at h; simp at h
  | none => rfl

/-- `begin_scope` does not touch the collector. -/
theorem RState.beginScope_ec (st : RState) : (st.beginScope).ec = st.ec := rfl

/-- `end_scope` does not touch the collector. -/
theorem RState.endScope_ec (st : RState) : (st.endScope).ec = st.ec := rfl

mutual

/-- On parser-fresh expressions the resolver never panics (each slot is
written at most once), and — when the collector stays clean — every slot of
the result has been written. -/
theorem resolveExpr_ok (e : Expr) (st : RState) (hf : freshExpr e = true) :
    ∃ e' st', resolveExpr e st = some (e', st') ∧
      (st'.ec.hadError = false → st.ec.hadError = false) ∧
      (st'.ec.hadError = false → annExpr e' = true) := by
  cases e with
  | literal v =>
      have heq : resolveExpr (.literal v) st = some (.literal v, st) := by
        simp [resolveExpr]
      exact ⟨_, _, heq, fun h => h, fun _ => by simp [annExpr]⟩
  | varE name slot =>
      rw [freshExpr] at hf
      cases hsc : st.scopes with
      | nil =>
          have heq : resolveExpr (.varE name slot) st =
              some (.varE name ⟨some (st.resolveLocal name)⟩, st) := by
            simp only [resolveExpr, hsc]
            rw [slotFresh_set _ _ hf]
            rfl
          exact ⟨_, _, heq, fun h => h,
            fun _ => by simp [annExpr, slotWritten]⟩
      | cons scope rest =>
          cases hg : alGet scope name.lexeme with
          | none =>
              have heq : resolveExpr (.varE name slot) st =
                  some (.varE name ⟨some (st.resolveLocal name)⟩, st) := by
                simp only [resolveExpr, hsc, hg]
                rw [slotFresh_set _ _ hf]
                rfl
              exact ⟨_, _, heq, fun h => h,
                fun _ => by simp [annExpr, slotWritten]⟩
          | some b =>
              cases b with
              | true =>
                  have heq : resolveExpr (.varE name slot) st =
                      some (.varE name ⟨some (st.resolveLocal name)⟩, st) := by
                    simp only [resolveExpr, hsc, hg]
                    rw [slotFresh_set _ _ hf]
                    rfl
                  exact ⟨_, _, heq, fun h => h,
                    fun _ => by simp [annExpr, slotWritten]⟩
              | false =>
                  have heq : resolveExpr (.varE name slot) st =
                      some (.varE name
                        ⟨some (RState.resolveLocal
                          { st with ec := st.ec.tokenError name ownInitializerMsg } name)⟩,
                        { st with ec := st.ec.tokenError name ownInitializerMsg }) := by
                    simp only [resolveExpr, hsc, hg]
                    rw [slotFresh_set _ _ hf]
                    rfl
                  refine ⟨_, _, heq, ?_, fun _ => by simp [annExpr, slotWritten]⟩
                  intro h
                  exact EC.tokenError_mono _ _ _ h
  | assign name value slot =>
      rw [freshExpr, Bool.and_eq_true] at hf
      obtain ⟨v', st1, he, hm, ha⟩ := resolveExpr_ok value st hf.2
      have heq : resolveExpr (.assign name value slot) st =
          some (.assign name v' ⟨some (st1.resolveLocal name)⟩, st1) := by
        simp only [resolveExpr, he, Option.bind_eq_bind, Option.some_bind]
        rw [slotFresh_set _ _ hf.1]
        rfl
      refine ⟨_, _, heq, hm, fun h => ?_⟩
      simp [annExpr, slotWritten, ha h]
  | unary op e =>
      rw [freshExpr] at hf
      obtain ⟨e', st1, he, hm, ha⟩ := resolveExpr_ok e st hf
      have heq : resolveExpr (.unary op e) st = some (.unary op e', st1) := by
        simp only [resolveExpr, he, Option.bind_eq_bind, Option.some_bind]
      exact ⟨_, _, heq, hm, fun h => by simp [annExpr, ha h]⟩
  | binary l op r =>
      rw [freshExpr, Bool.and_eq_true] at hf
      obtain ⟨l', st1, hel, hml, hal⟩ := resolveExpr_ok l st hf.1
      obtain ⟨r', st2, her, hmr, har⟩ := resolveExpr_ok r st1 hf.2
      have heq : resolveExpr (.binary l op r) st = some (.binary l' op r', st2) := by
        simp only [resolveExpr, hel, her, Option.bind_eq_bind, Option.some_bind]
      exact ⟨_, _, heq, fun h => hml (hmr h),
        fun h => by simp [annExpr, hal (hmr h), har h]⟩
  | condition l op r =>
      rw [freshExpr, Bool.and_eq_true] at hf
      obtain ⟨l', st1, hel, hml, hal⟩ := resolveExpr_ok l st hf.1
      obtain ⟨r', st2, her, hmr, har⟩ := resolveExpr_ok r st1 hf.2
      have heq : resolveExpr (.condition l op r) st =
          some (.condition l' op r', st2) := by
        simp only [resolveExpr, hel, her, Option.bind_eq_bind, Option.some_bind]
      exact ⟨_, _, heq, fun h => hml (hmr h),
        fun h => by simp [annExpr, hal (hmr h), har h]⟩
  | grouping e =>
      rw [freshExpr] at hf
      obtain ⟨e', st1, he, hm, ha⟩ := resolveExpr_ok e st hf
      have heq : resolveExpr (.grouping e) st = some (.grouping e', st1) := by
        simp only [resolveExpr, he, Option.bind_eq_bind, Option.some_bind]
      exact ⟨_, _, heq, hm, fun h => by simp [annExpr, ha h]⟩
  | call callee paren args =>
      rw [freshExpr, Bool.and_eq_true] at hf
      obtain ⟨c', st1, hec, hmc, hac⟩ := resolveExpr_ok callee st hf.1
      obtain ⟨args', st2, hea, hma, haa⟩ := resolveExprList_ok args st1 hf.2
      have heq : resolveExpr (.call callee paren args) st =
          some (.call c' paren args', st2) := by
        simp only [resolveExpr, hec, hea, Option.bind_eq_bind, Option.some_bind]
      exact ⟨_, _, heq, fun h => hmc (hma h),
        fun h => by simp [annExpr, hac (hma h), haa h]⟩
  | getE obj name =>
      rw [freshExpr] at hf
      obtain ⟨o', st1, he, hm, ha⟩ := resolveExpr_ok obj st hf
      have heq : resolveExpr (.getE obj name) st = some (.getE o' name, st1) := by
        simp only [resolveExpr, he, Option.bind_eq_bind, Option.some_bind]
      exact ⟨_, _, heq, hm, fun h => by simp [annExpr, ha h]⟩
  | setE obj name value =>
      rw [freshExpr, Bool.and_eq_true] at hf
      obtain ⟨o', st1, heo, hmo, hao⟩ := resolveExpr_ok obj st hf.1
      obtain ⟨v', st2, hev, hmv, hav⟩ := resolveExpr_ok value st1 hf.2
      have heq : resolveExpr (.setE obj name value) st =
          some (.setE o' name v', st2) := by
        simp only [resolveExpr, heo, hev, Option.bind_eq_bind, Option.some_bind]
      exact ⟨_, _, heq, fun h => hmo (hmv h),
        fun h => by simp [annExpr, hao (hmv h), hav h]⟩
  | thisE token slot =>
      rw [freshExpr] at hf
      cases hct : st.classType with
      | classT =>
          have heq : resolveExpr (.thisE token slot) st =
              some (.thisE token ⟨some (st.resolveLocal token)⟩, st) := by
            simp only [resolveExpr, hct]
            rw [slotFresh_set _ _ hf]
            rfl
          exact ⟨_, _, heq, fun h => h, fun _ => by simp [annExpr, slotWritten]⟩
      | subClass =>
          have heq : resolveExpr (.thisE token slot) st =
              some (.thisE token ⟨some (st.resolveLocal token)⟩, st) := by
            simp only [resolveExpr, hct]
            rw [slotFresh_set _ _ hf]
            rfl
          exact ⟨_, _, heq, fun h => h, fun _ => by simp [annExpr, slotWritten]⟩
      | none =>
          have heq : resolveExpr (.thisE token slot) st =
              some (.thisE token slot,
                { st with ec := st.ec.tokenError token ("Can" ++ squote ++ "t use " ++ squote ++ "this" ++ squote ++ " outside of a class.") }) := by
            simp only [resolveExpr, hct]
          refine ⟨_, _, heq, ?_, ?_⟩
          · intro h
            simp only [EC.tokenError_hadError] at h
            exact absurd h (by decide)
          · intro h
            simp only [EC.tokenError_hadError] at h
            exact absurd h (by decide)
  | superE keyword method slot =>
      rw [freshExpr] at hf
      cases hct : st.classType with
      | subClass =>
          have heq : resolveExpr (.superE keyword method slot) st =
              some (.superE keyword method ⟨some (st.resolveLocal keyword)⟩, st) := by
            simp only [resolveExpr, hct]
            rw [slotFresh_set _ _ hf]
            rfl
          exact ⟨_, _, heq, fun h => h, fun _ => by simp [annExpr, slotWritten]⟩
      | none =>
          have heq : resolveExpr (.superE keyword method slot) st =
              some (.superE keyword method
                ⟨some (RState.resolveLocal { st with ec := st.ec.tokenError keyword "Cannot use super outside of a class." } keyword)⟩,
                { st with ec := st.ec.tokenError keyword "Cannot use super outside of a class." }) := by
            simp only [resolveExpr, hct]
            rw [slotFresh_set _ _ hf]
            rfl
          refine ⟨_, _, heq, ?_, fun _ => by simp [annExpr, slotWritten]⟩
          intro h
          exact EC.tokenError_mono _ _ _ h
      | classT =>
          have heq : resolveExpr (.superE keyword method slot) st =
              some (.superE keyword method
                ⟨some (RState.resolveLocal { st with ec := st.ec.tokenError keyword "Cannot use super in a class that is not a sub class." } keyword)⟩,
                { st with ec := st.ec.tokenError keyword "Cannot use super in a class that is not a sub class." }) := by
            simp only [resolveExpr, hct]
            rw [slotFresh_set _ _ hf]
            rfl
          refine ⟨_, _, heq, ?_, fun _ => by simp [annExpr, slotWritten]⟩
          intro h
          exact EC.tokenError_mono _ _ _ h

theorem resolveExprList_ok (es : List Expr) (st : RState)
    (hf : freshExprList es = true) :
    ∃ es' st', resolveExprList es st = some (es', st') ∧
      (st'.ec.hadError = false → st.ec.hadError = false) ∧
      (st'.ec.hadError = false → annExprList es' = true) := by
  cases es with
  | nil =>
      exact ⟨[], st, by simp [resolveExprList], fun h => h,
        fun _ => by simp [annExprList]⟩
  | cons e rest =>
      rw [freshExprList, Bool.and_eq_true] at hf
      obtain ⟨e', st1, he, hm, ha⟩ := resolveExpr_ok e st hf.1
      obtain ⟨rest', st2, her, hmr, har⟩ := resolveExprList_ok rest st1 hf.2
      have heq : resolveExprList (e :: rest) st = some (e' :: rest', st2) := by
        simp only [resolveExprList, he, her, Option.bind_eq_bind, Option.some_bind]
      exact ⟨_, _, heq, fun h => hm (hmr h),
        fun h => by simp [annExprList, ha (hmr h), har h]⟩

end

end TreeLox

namespace TreeLox

set_option maxHeartbeats 2000000 in
mutual

/-- Statement-level analogue of `resolveExpr_ok`. -/
theorem resolveStmt_ok (s : Stmt) (st : RState) (hf : freshStmt s = true) :
    ∃ s' st', resolveStmt s st = some (s', st') ∧
      (st'.ec.hadError = false → st.ec.hadError = false) ∧
      (st'.ec.hadError = false → annStmt s' = true) := by
  cases s with
  | expression e =>
      rw [freshStmt] at hf
      obtain ⟨e', st1, he, hm, ha⟩ := resolveExpr_ok e st hf
      have heq : resolveStmt (.expression e) st = some (.expression e', st1) := by
        simp only [resolveStmt, he, Option.bind_eq_bind, Option.some_bind]
      exact ⟨_, _, heq, hm, fun h => by simp [annStmt, ha h]⟩
  | block ss =>
      rw [freshStmt] at hf
      obtain ⟨ss', st1, he, hm, ha⟩ := resolveStmtList_ok ss st.beginScope hf
      have heq : resolveStmt (.block ss) st = some (.block ss', st1.endScope) := by
        simp only [resolveStmt, he, Option.bind_eq_bind, Option.some_bind]
      refine ⟨_, _, heq, ?_, ?_⟩
      · intro h
        rw [RState.endScope_ec] at h
        have := hm h
        rwa [RState.beginScope_ec] at this
      · intro h
        rw [RState.endScope_ec] at h
        simp [annStmt, ha h]
  | varS name ini =>
      rw [freshStmt] at hf
      cases ini with
      | none =>
          have heq : resolveStmt (.varS name none) st =
              some (.varS name none, (st.declare name).define name) := by
            simp only [resolveStmt, Option.bind_eq_bind, Option.some_bind]
          refine ⟨_, _, heq, ?_, fun _ => by simp [annStmt, annOptExpr]⟩
          intro h
          rw [RState.define_ec] at h
          exact RState.declare_mono _ _ h
      | some e =>
          rw [freshOptExpr] at hf
          obtain ⟨e', st1, he, hm, ha⟩ := resolveExpr_ok e (st.declare name) hf
          have heq : resolveStmt (.varS name (some e)) st =
              some (.varS name (some e'), st1.define name) := by
            simp only [resolveStmt, he, Option.bind_eq_bind, Option.some_bind]
          refine ⟨_, _, heq, ?_, ?_⟩
          · intro h
            rw [RState.define_ec] at h
            exact RState.declare_mono _ _ (hm h)
          · intro h
            rw [RState.define_ec] at h
            simp [annStmt, annOptExpr, ha h]
  | functionS name parameters body =>
      rw [freshStmt] at hf
      obtain ⟨body', st1, he, hm, ha⟩ :=
        resolveFunction_ok parameters body .function ((st.declare name).define name) hf
      have heq : resolveStmt (.functionS name parameters body) st =
          some (.functionS name parameters body', st1) := by
        simp only [resolveStmt, he, Option.bind_eq_bind, Option.some_bind]
      refine ⟨_, _, heq, ?_, fun h => by simp [annStmt, ha h]⟩
      intro h
      have := hm h
      rw [RState.define_ec] at this
      exact RState.declare_mono _ _ this
  | printS e =>
      rw [freshStmt] at hf
      obtain ⟨e', st1, he, hm, ha⟩ := resolveExpr_ok e st hf
      have heq : resolveStmt (.printS e) st = some (.printS e', st1) := by
        simp only [resolveStmt, he, Option.bind_eq_bind, Option.some_bind]
      exact ⟨_, _, heq, hm, fun h => by simp [annStmt, ha h]⟩
  | ifS cond thenS elseS =>
      cases elseS with
      | none =>
          simp only [freshStmt, Bool.and_true, Bool.and_eq_true] at hf
          obtain ⟨hfc, hft⟩ := hf
          obtain ⟨c', st1, hec, hmc, hac⟩ := resolveExpr_ok cond st hfc
          obtain ⟨t', st2, het, hmt, hat⟩ := resolveStmt_ok thenS st1 hft
          have heq : resolveStmt (.ifS cond thenS none) st =
              some (.ifS c' t' none, st2) := by
            simp only [resolveStmt, hec, het, Option.bind_eq_bind, Option.some_bind]
          exact ⟨_, _, heq, fun h => hmc (hmt h),
            fun h => by simp [annStmt, hac (hmt h), hat h]⟩
      | some elseStmt =>
          simp only [freshStmt, Bool.and_eq_true] at hf
          obtain ⟨⟨hfc, hft⟩, hfe⟩ := hf
          obtain ⟨c', st1, hec, hmc, hac⟩ := resolveExpr_ok cond st hfc
          obtain ⟨t', st2, het, hmt, hat⟩ := resolveStmt_ok thenS st1 hft
          obtain ⟨e', st3, hee, hme, hae⟩ := resolveStmt_ok elseStmt st2 hfe
          have heq : resolveStmt (.ifS cond thenS (some elseStmt)) st =
              some (.ifS c' t' (some e'), st3) := by
            simp only [resolveStmt, hec, het, hee, Option.bind_eq_bind, Option.some_bind]
          exact ⟨_, _, heq, fun h => hmc (hmt (hme h)),
            fun h => by simp [annStmt, hac (hmt (hme h)), hat (hme h), hae h]⟩
  | whileS cond body =>
      rw [freshStmt, Bool.and_eq_true] at hf
      obtain ⟨c', st1, hec, hmc, hac⟩ := resolveExpr_ok cond st hf.1
      obtain ⟨b', st2, heb, hmb, hab⟩ := resolveStmt_ok body st1 hf.2
      have heq : resolveStmt (.whileS cond body) st = some (.whileS c' b', st2) := by
        simp only [resolveStmt, hec, heb, Option.bind_eq_bind, Option.some_bind]
      exact ⟨_, _, heq, fun h => hmc (hmb h),
        fun h => by simp [annStmt, hac (hmb h), hab h]⟩
  | returnS token value =>
      rw [freshStmt] at hf
      -- the state after the static return checks
      have hcheck : ∃ stc : RState,
          (match st.functionType with
            | FunctionType.none =>
                { st with ec := st.ec.tokenError token ("Can" ++ squote ++ "t return from top level code.") }
            | FunctionType.initializer =>
                if value.isSome then
                  { st with ec := st.ec.tokenError token ("Can" ++ squote ++ "t return value from initializer.") }
                else st
            | _ => st) = stc ∧
          (stc.ec.hadError = false → st.ec.hadError = false) := by
        cases hft : st.functionType with
        | none => exact ⟨_, rfl, fun h => EC.tokenError_mono _ _ _ h⟩
        | initializer =>
            cases hv : value.isSome with
            | true =>
                refine ⟨_, rfl, ?_⟩
                intro h
                simp only [hv, if_pos] at h
                exact EC.tokenError_mono _ _ _ h
            | false =>
                refine ⟨_, rfl, ?_⟩
                intro h
                simpa [hv] using h
        | function => exact ⟨st, rfl, fun h => h⟩
        | method => exact ⟨st, rfl, fun h => h⟩
      obtain ⟨stc, hstc, hmc⟩ := hcheck
      cases value with
      | none =>
          have heq : resolveStmt (.returnS token none) st =
              some (.returnS token none, stc) := by
            simp only [resolveStmt, hstc, Option.bind_eq_bind, Option.some_bind]
          exact ⟨_, _, heq, hmc, fun _ => by simp [annStmt, annOptExpr]⟩
      | some e =>
          rw [freshOptExpr] at hf
          obtain ⟨e', st1, he, hm, ha⟩ := resolveExpr_ok e stc hf
          have heq : resolveStmt (.returnS token (some e)) st =
              some (.returnS token (some e'), st1) := by
            simp only [resolveStmt, hstc, he, Option.bind_eq_bind, Option.some_bind]
          exact ⟨_, _, heq, fun h => hmc (hm h),
            fun h => by simp [annStmt, annOptExpr, ha h]⟩
  | classS name superClass methods =>
      cases superClass with
      | none =>
          simp only [freshStmt, Bool.true_and] at hf
          obtain ⟨methods', st7, hem, hmm, ham⟩ :=
            resolveMethodList_ok methods
              (({ st with classType := ClassType.classT }.declare name).define name) hf
          have heq : resolveStmt (.classS name none methods) st =
              some (.classS name none methods', { st7 with classType := st.classType }) := by
            simp only [resolveStmt, hem, Option.bind_eq_bind, Option.some_bind]
            rfl
          refine ⟨_, _, heq, ?_, ?_⟩
          · intro h
            replace h : st7.ec.hadError = false := h
            have := hmm h
            rw [RState.define_ec] at this
            exact RState.declare_mono { st with classType := ClassType.classT } name this
          · intro h
            replace h : st7.ec.hadError = false := h
            simp [annStmt, ham h]
      | some se =>
          cases se
          case varE sName sslot =>
              simp only [freshStmt, Bool.and_eq_true] at hf
              obtain ⟨hfs, hfm⟩ := hf
              have hfs2 : freshExpr (.varE sName sslot) = true := by
                rw [freshExpr]; exact hfs
              by_cases hnm : name.lexeme = sName.lexeme
              · obtain ⟨se', st4, hese, hmse, hase⟩ :=
                  resolveExpr_ok (.varE sName sslot)
                    { ({ (({ st with classType := ClassType.classT }).declare name).define name with classType := ClassType.subClass }) with
                      ec := ({ (({ st with classType := ClassType.classT }).declare name).define name with classType := ClassType.subClass }).ec.tokenError sName "Class cannot extend itself." } hfs2
                obtain ⟨methods', st7, hem, hmm, ham⟩ :=
                  resolveMethodList_ok methods
                    { scopes := alSet [] "super" true :: st4.scopes,
                      functionType := st4.functionType, classType := st4.classType,
                      ec := st4.ec } hfm
                have heq : resolveStmt (.classS name (some (.varE sName sslot)) methods) st =
                    some (.classS name (some se') methods',
                      { st7.endScope with classType := st.classType }) := by
                  simp only [resolveStmt, if_pos hnm, hese, hem, Option.bind_eq_bind,
                    Option.some_bind, RState.beginScope]
                  rfl
                refine ⟨_, _, heq, ?_, ?_⟩
                · intro h
                  replace h : st7.ec.hadError = false := h
                  have h2 := hmm h
                  replace h2 : st4.ec.hadError = false := h2
                  have h3 := hmse h2
                  replace h3 := EC.tokenError_mono _ _ _ h3
                  replace h3 : ((({ st with classType := ClassType.classT }).declare name).define name).ec.hadError = false := h3
                  rw [RState.define_ec] at h3
                  exact RState.declare_mono { st with classType := ClassType.classT } name h3
                · intro h
                  replace h : st7.ec.hadError = false := h
                  have h2 := hmm h
                  replace h2 : st4.ec.hadError = false := h2
                  simp [annStmt, hase h2, ham h]
              · obtain ⟨se', st4, hese, hmse, hase⟩ :=
                  resolveExpr_ok (.varE sName sslot)
                    { (({ st with classType := ClassType.classT }).declare name).define name with classType := ClassType.subClass } hfs2
                obtain ⟨methods', st7, hem, hmm, ham⟩ :=
                  resolveMethodList_ok methods
                    { scopes := alSet [] "super" true :: st4.scopes,
                      functionType := st4.functionType, classType := st4.classType,
                      ec := st4.ec } hfm
                have heq : resolveStmt (.classS name (some (.varE sName sslot)) methods) st =
                    some (.classS name (some se') methods',
                      { st7.endScope with classType := st.classType }) := by
                  simp only [resolveStmt, if_neg hnm, hese, hem, Option.bind_eq_bind,
                    Option.some_bind, RState.beginScope]
                  rfl
                refine ⟨_, _, heq, ?_, ?_⟩
                · intro h
                  replace h : st7.ec.hadError = false := h
                  have h2 := hmm h
                  replace h2 : st4.ec.hadError = false := h2
                  have h3 := hmse h2
                  replace h3 : ((({ st with classType := ClassType.classT }).declare name).define name).ec.hadError = false := h3
                  rw [RState.define_ec] at h3
                  exact RState.declare_mono { st with classType := ClassType.classT } name h3
                · intro h
                  replace h : st7.ec.hadError = false := h
                  have h2 := hmm h
                  replace h2 : st4.ec.hadError = false := h2
                  simp [annStmt, hase h2, ham h]
          all_goals simp [freshStmt] at hf

/-- List analogue. -/
theorem resolveStmtList_ok (ss : List Stmt) (st : RState)
    (hf : freshStmtList ss = true) :
    ∃ ss' st', resolveStmtList ss st = some (ss', st') ∧
      (st'.ec.hadError = false → st.ec.hadError = false) ∧
      (st'.ec.hadError = false → annStmtList ss' = true) := by
  cases ss with
  | nil =>
      exact ⟨[], st, by simp [resolveStmtList], fun h => h,
        fun _ => by simp [annStmtList]⟩
  | cons s rest =>
      rw [freshStmtList, Bool.and_eq_true] at hf
      obtain ⟨s', st1, he, hm, ha⟩ := resolveStmt_ok s st hf.1
      obtain ⟨rest', st2, her, hmr, har⟩ := resolveStmtList_ok rest st1 hf.2
      have heq : resolveStmtList (s :: rest) st = some (s' :: rest', st2) := by
        simp only [resolveStmtList, he, her, Option.bind_eq_bind, Option.some_bind]
      exact ⟨_, _, heq, fun h => hm (hmr h),
        fun h => by simp [annStmtList, ha (hmr h), har h]⟩

/-- `resolve_function` analogue. -/
theorem resolveFunction_ok (parameters : List Token) (body : List Stmt)
    (ftype : FunctionType) (st : RState) (hf : freshStmtList body = true) :
    ∃ body' st', resolveFunction parameters body ftype st = some (body', st') ∧
      (st'.ec.hadError = false → st.ec.hadError = false) ∧
      (st'.ec.hadError = false → annStmtList body' = true) := by
  obtain ⟨body', st1, he, hm, ha⟩ :=
    resolveStmtList_ok body
      (parameters.foldl (fun st p => (st.declare p).define p)
        ({ st with functionType := ftype }.beginScope)) hf
  have heq : resolveFunction parameters body ftype st =
      some (body', { st1.endScope with functionType := st.functionType }) := by
    simp only [resolveFunction, he, Option.bind_eq_bind, Option.some_bind]
  refine ⟨_, _, heq, ?_, ?_⟩
  · intro h
    replace h : st1.ec.hadError = false := h
    have h2 := hm h
    exact foldl_declareDefine_mono parameters
      ({ st with functionType := ftype }.beginScope) h2
  · intro h
    replace h : st1.ec.hadError = false := h
    exact ha h

/-- Method-list analogue. -/
theorem resolveMethodList_ok (methods : List Stmt) (st : RState)
    (hf : freshMethodList methods = true) :
    ∃ methods' st', resolveMethodList methods st = some (methods', st') ∧
      (st'.ec.hadError = false → st.ec.hadError = false) ∧
      (st'.ec.hadError = false → annStmtList methods' = true) := by
  cases methods with
  | nil =>
      exact ⟨[], st, by simp [resolveMethodList], fun h => h,
        fun _ => by simp [annStmtList]⟩
  | cons m rest =>
      cases m
      case functionS mname mparams mbody =>
          rw [freshMethodList, Bool.and_eq_true] at hf
          obtain ⟨mbody', st1, he, hm, ha⟩ :=
            resolveFunction_ok mparams mbody
              (if mname.lexeme = "init" then FunctionType.initializer else FunctionType.method)
              { scopes := alSet [] "this" true :: st.scopes,
                functionType := st.functionType, classType := st.classType,
                ec := st.ec } hf.1
          obtain ⟨rest', st2, her, hmr, har⟩ :=
            resolveMethodList_ok rest st1.endScope hf.2
          have heq : resolveMethodList (.functionS mname mparams mbody :: rest) st =
              some (.functionS mname mparams mbody' :: rest', st2) := by
            simp only [resolveMethodList, he, her, Option.bind_eq_bind, Option.some_bind,
              RState.beginScope]
          refine ⟨_, _, heq, ?_, ?_⟩
          · intro h
            have h2 := hmr h
            rw [RState.endScope_ec] at h2
            replace h2 : st.ec.hadError = false := hm h2
            exact h2
          · intro h
            have h2 := hmr h
            rw [RState.endScope_ec] at h2
            simp [annStmtList, annStmt, ha h2, har h]
      all_goals simp [freshMethodList] at hf

end

end TreeLox

namespace TreeLox

/-- A representative parsed program: a class with a method whose body
references `this`. -/
def c5Program : List Stmt :=
  ((scanAndParse "class A \x7b m() \x7b return this; \x7d \x7d").map Prod.fst).getD []

end TreeLox

open TreeLox in
/-- C5: (1) on any parser-fresh program the resolver pass completes without
panicking — so each scope-depth slot is written at most once, a second
write being the `Late::set` panic — and, whenever the collector reports no
static error (the precondition for evaluation to run at all), every
variable/`this`/`super` (and assignment) node of the resolved program has
its slot written; (2) a second write to an already-written slot panics
rather than overwriting. -/
theorem c5_resolver_completeness :
    (∀ (ss : List Stmt) (ec : EC), freshStmtList ss = true →
      ∃ out ec', resolveProgram ss ec = some (out, ec') ∧
        (ec'.hadError = false → annStmtList out = true)) ∧
    (∀ (v w : Option Nat), (LateCell.mk (some v) : Slot).set w = none) := by
  constructor
  · intro ss ec hf
    obtain ⟨out, st', heq, _, ha⟩ := resolveStmtList_ok ss
      { scopes := [], functionType := .none, classType := .none, ec := ec } hf
    refine ⟨out, st'.ec, ?_, ha⟩
    simp only [resolveProgram, heq, Option.bind_eq_bind, Option.some_bind]
  · intro v w
    rfl

set_option maxRecDepth 4000 in
open TreeLox in
/-- Witness for `c5_resolver_completeness` on a concrete parsed program (a
class with a method referencing `this`) and a concrete already-written
cell. -/
theorem c5_resolver_completeness_witness :
    freshStmtList c5Program = true ∧
    (∃ out ec', resolveProgram c5Program EC.fresh = some (out, ec') ∧
      (ec'.hadError = false → annStmtList out = true)) ∧
    (LateCell.mk (some (some 2)) : Slot).set none = none :=
  ⟨by decide, c5_resolver_completeness.1 c5Program EC.fresh (by decide),
    c5_resolver_completeness.2 (some 2) none⟩

namespace TreeLox

/-- A declared function value (`DeclaredFunction` in
`src/interpreter/src/interpreter.rs`): `declaration.as_function()`'s three
fields, the closure environment as an arena handle, and the initializer
flag. -/
structure DeclFn where
  fname : Token
  parameters : List Token
  body : List Stmt
  closure : Nat
  isInitializer : Bool

/-- A class value (`Class`): name, optional superclass, and the method
table (`HashMap<String, Rc<DeclaredFunction>>` as an association list). -/
inductive ClassV where
  | mk (name : String) (superClass : Option ClassV) (methods : List (String × DeclFn))

/-- Class name accessor. -/
def ClassV.cname : ClassV → String
  | .mk n _ _ => n

/-- `enum RuntimeValue`.  `Rc<RefCell<Instance>>` becomes an arena handle;
the only builtin is `clock`. -/
inductive RuntimeValue where
  | nil
  | bool (b : Bool)
  | number (n : Rat)
  | string (s : String)
  | builtin (name : String) (arity : Nat)
  | declaredFn (f : DeclFn)
  | classV (c : ClassV)
  | instanceV (id : Nat)

/-- `RuntimeValue::is_truthy`: only `Bool(true)` is truthy. -/
def RuntimeValue.is_truthy : RuntimeValue → Bool
  | .bool v => v
  | _ => false

/-- An environment (`Environment` in `src/src/environment.rs`; the
interpreter crate's copy, whose `get_at`/`assign_at` yield the value
directly, is not under `src/` — the chain shape and messages follow the
`src/src` file and every use in `src/interpreter/src/interpreter.rs`).
`Rc<RefCell<Environment>>` becomes an arena handle. -/
structure EnvData where
  enclosing : Option Nat
  values : List (String × RuntimeValue)

/-- An instance (`Instance`): its class and mutable field map. -/
structure InstData where
  klass : ClassV
  fields : List (String × RuntimeValue)

/-- Interpreter state: the environment arena (`globals` is handle 0), the
instance arena, the collector (stdout lines plus flags), and the ambient
clock value returned by the `clock` builtin. -/
structure IState where
  envs : List EnvData
  insts : List InstData
  ec : EC
  now : Rat

/-- The control-flow channel (`Result<T, EarlyReturn>`): normal value,
`EarlyReturn::Return`, or `EarlyReturn::Error(RuntimeError)`. -/
inductive Ctl (α : Type) where
  | ok (a : α)
  | early (v : RuntimeValue)
  | err (message : String) (token : Token)

/-- The empty environment used as the out-of-bounds default (an arena
access out of bounds is a Rust panic and never happens on reachable
states). -/
def emptyEnv : EnvData := { enclosing := none, values := [] }

/-- Values stored in environment `id`. -/
def IState.envValues (st : IState) (id : Nat) : List (String × RuntimeValue) :=
  (st.envs.getD id emptyEnv).values

/-- Enclosing link of environment `id`. -/
def IState.envEnclosing (st : IState) (id : Nat) : Option Nat :=
  (st.envs.getD id emptyEnv).enclosing

/-- `Environment::define`: insert into the scope `id`. -/
def IState.define (st : IState) (id : Nat) (name : String) (v : RuntimeValue) : IState :=
  let e := st.envs.getD id emptyEnv
  { st with envs := st.envs.set id { e with values := alSet e.values name v } }

/-- `Environment::with_scope_at`: follow exactly `scopeIndex` enclosing
links (the chain is acyclic since parents precede children in the arena, so
`envs.length` bounds its depth); a missing link is the `unwrap` panic. -/
def IState.envAt (st : IState) (fuel : Nat) (id : Nat) (scopeIndex : Nat) : Option Nat :=
  match fuel, scopeIndex with
  | _, 0 => some id
  | 0, _ + 1 => none
  | fuel + 1, k + 1 =>
      match st.envEnclosing id with
      | some p => st.envAt fuel p k
      | none => none

/-- `Environment::get_at`: the name is guaranteed present by the resolver;
its absence is a panic (`none`). -/
def IState.getAt (st : IState) (id : Nat) (name : String) (scopeIndex : Nat) :
    Option RuntimeValue := do
  let target ← st.envAt (st.envs.length + 1) id scopeIndex
  alGet (st.envValues target) name

/-- `Environment::assign_at`. -/
def IState.assignAt (st : IState) (id : Nat) (name : String) (scopeIndex : Nat)
    (v : RuntimeValue) : Option IState := do
  let target ← st.envAt (st.envs.length + 1) id scopeIndex
  pure (st.define target name v)

/-- `Environment::get`: walk outward; failure is the runtime error
`Variable 'X' is not defined.`. -/
def IState.envGet (st : IState) (fuel : Nat) (id : Nat) (tok : Token) :
    Option (Ctl RuntimeValue) :=
  match fuel with
  | 0 => none
  | fuel + 1 =>
      match alGet (st.envValues id) tok.lexeme with
      | some v => some (.ok v)
      | none =>
          match st.envEnclosing id with
          | some p => st.envGet fuel p tok
          | none =>
              some (.err ("Variable " ++ squote ++ tok.lexeme ++ squote ++
                " is not defined.") tok)

/-- `Environment::assign`: walk outward; failure is
`Cannot assign to undefined variable 'X'.`. -/
def IState.envAssign (st : IState) (fuel : Nat) (id : Nat) (tok : Token)
    (v : RuntimeValue) : Option (Ctl IState) :=
  match fuel with
  | 0 => none
  | fuel + 1 =>
      if alHas (st.envValues id) tok.lexeme then
        some (.ok (st.define id tok.lexeme v))
      else
        match st.envEnclosing id with
        | some p => st.envAssign fuel p tok v
        | none =>
            some (.err ("Cannot assign to undefined variable " ++ squote ++
              tok.lexeme ++ squote ++ ".") tok)

/-- `Class::find_method`: own methods first, then the superclass chain. -/
def findMethod (c : ClassV) (n : String) : Option DeclFn :=
  match c with
  | .mk _ sup methods =>
      match alGet methods n with
      | some m => some m
      | none =>
          match sup with
          | some s => findMethod s n
          | none => none

/-- `Callable::arity` for declared functions: `parameters.len() as u8`. -/
def DeclFn.arity (f : DeclFn) : Nat := f.parameters.length % 256

/-- `Callable::arity` for classes: the `init` arity, or 0. -/
def ClassV.arity (c : ClassV) : Nat :=
  ((findMethod c "init").map DeclFn.arity).getD 0

/-- `DeclaredFunction::bind`: a fresh environment enclosed by the closure,
holding `this`. -/
def bindMethod (st : IState) (f : DeclFn) (instId : Nat) : DeclFn × IState :=
  let newId := st.envs.length
  ({ f with closure := newId },
    { st with envs := st.envs ++
        [{ enclosing := some f.closure,
           values := alSet [] "this" (.instanceV instId) }] })

/-- `Instance::set`. -/
def IState.instanceSet (st : IState) (id : Nat) (name : String)
    (v : RuntimeValue) : IState :=
  let inst := st.insts.getD id ⟨.mk "" none [], []⟩
  { st with insts := st.insts.set id { inst with fields := alSet inst.fields name v } }

/-- `InstanceGet::get`: fields first, then a method bound on access, else
`Undefined property 'X'.`. -/
def IState.instanceGet (st : IState) (id : Nat) (name : Token) :
    Option (Ctl RuntimeValue × IState) := do
  let inst ← st.insts.get? id
  match alGet inst.fields name.lexeme with
  | some v => some (.ok v, st)
  | none =>
      match findMethod inst.klass name.lexeme with
      | some m =>
          let (m', st) := bindMethod st m id
          some (.ok (.declaredFn m'), st)
      | none =>
          some (.err ("Undefined property " ++ squote ++ name.lexeme ++ squote ++ ".")
            name, st)

/-- The display form of `RuntimeValue` (`impl Display`); non-integral
numbers render as reduced fractions standing in for default f64
formatting. -/
def IState.display (st : IState) (v : RuntimeValue) : String :=
  match v with
  | .nil => "nil"
  | .bool true => "true"
  | .bool false => "false"
  | .number n => if n.den = 1 then Int.repr n.num
      else Int.repr n.num ++ "/" ++ Nat.repr n.den
  | .string s => s
  | .builtin name _ => "<native fun " ++ name ++ ">"
  | .declaredFn f => "<fun " ++ f.fname.lexeme ++ ">"
  | .classV c => "<" ++ c.cname ++ ">"
  | .instanceV id => "<" ++ (st.insts.getD id ⟨.mk "" none [], []⟩).klass.cname ++
      " instance>"

/-- `PartialEq for RuntimeValue`: primitives by value, strings by content,
instances by identity (arena handle).  Functions and classes compare by
`Rc` pointer identity in Rust; the closest structural counterpart (equality
of the embedded data, with closures by handle) is used here — no claim in
scope depends on it. -/
def rvEq (a b : RuntimeValue) : Bool :=
  match a, b with
  | .nil, .nil => true
  | .bool l, .bool r => l == r
  | .number l, .number r => l == r
  | .string l, .string r => l == r
  | .instanceV l, .instanceV r => l == r
  | .builtin ln la, .builtin rn ra => ln == rn && la == ra
  | _, _ => false

/-- `check_numeric_operand`. -/
def checkNumericOperand (operator : Token) (operand : RuntimeValue) : Ctl Rat :=
  match operand with
  | .number v => .ok v
  | _ => .err "Operand must be a number." operator

/-- `check_numeric_operands`. -/
def checkNumericOperands (operator : Token) (l r : RuntimeValue) : Ctl (Rat × Rat) :=
  match l, r with
  | .number lv, .number rv => .ok (lv, rv)
  | _, _ => .err "Operands must both be numbers." operator

end TreeLox

namespace TreeLox

/-- Bind parameters to arguments in a fresh call scope
(`for (parameter, argument) in parameters.iter().zip(arguments)`). -/
def zipParams (parameters : List Token) (args : List RuntimeValue) :
    List (String × RuntimeValue) :=
  (parameters.zip args).foldl (fun acc pa => alSet acc pa.1.lexeme pa.2) []

/-- `Interpreter::lookup_variable`. -/
def lookupVariable (st : IState) (env : Nat) (name : Token) (scopeIndex : Option Nat) :
    Option (Ctl RuntimeValue) :=
  match scopeIndex with
  | some idx => (st.getAt env name.lexeme idx).map Ctl.ok
  | none => st.envGet (st.envs.length + 1) 0 name

/-- `Stmt::as_variable`'s panic on the superclass expression. -/
def superClassNameToken : Expr → Option Token
  | .varE name _ => some name
  | _ => none

/-- The class-statement method table
(`for method in &stmt.methods { methods.insert(...) }`); a non-function
member is the `as_function` panic. -/
def methodTable (methods : List Stmt) (methodEnv : Nat) :
    Option (List (String × DeclFn)) :=
  methods.foldlM (fun acc m =>
    match m with
    | .functionS mname mparams mbody =>
        some (alSet acc mname.lexeme
          ⟨mname, mparams, mbody, methodEnv, mname.lexeme == "init"⟩)
    | _ => none) []

/-- `RuntimeValue::is_truthy` dispatch used by `visit_binary_expr` on
`==`/`!=`: `PartialEq` (see `rvEq`) extended to declared functions and
classes (identity in Rust; never reached by the claims). -/
def binaryOp (op : Token) (l r : RuntimeValue) : Option (Ctl RuntimeValue) :=
  match op.ttype with
  | .plus =>
      match l, r with
      | .number lv, .number rv => some (.ok (.number (lv + rv)))
      | .string lv, .string rv => some (.ok (.string (lv ++ rv)))
      | _, _ =>
          some (.err "Operands must either both be numbers or both be strings." op)
  | .minus =>
      match checkNumericOperands op l r with
      | .ok (lv, rv) => some (.ok (.number (lv - rv)))
      | .err m t => some (.err m t)
      | .early w => some (.early w)
  | .slash =>
      match checkNumericOperands op l r with
      | .ok (lv, rv) => some (.ok (.number (lv / rv)))
      | .err m t => some (.err m t)
      | .early w => some (.early w)
  | .star =>
      match checkNumericOperands op l r with
      | .ok (lv, rv) => some (.ok (.number (lv * rv)))
      | .err m t => some (.err m t)
      | .early w => some (.early w)
  | .equalEqual => some (.ok (.bool (rvEq l r)))
  | .bangEqual => some (.ok (.bool (!rvEq l r)))
  | .less =>
      match checkNumericOperands op l r with
      | .ok (lv, rv) => some (.ok (.bool (decide (lv < rv))))
      | .err m t => some (.err m t)
      | .early w => some (.early w)
  | .lessEqual =>
      match checkNumericOperands op l r with
      | .ok (lv, rv) => some (.ok (.bool (decide (lv ≤ rv))))
      | .err m t => some (.err m t)
      | .early w => some (.early w)
  | .greater =>
      match checkNumericOperands op l r with
      | .ok (lv, rv) => some (.ok (.bool (decide (rv < lv))))
      | .err m t => some (.err m t)
      | .early w => some (.early w)
  | .greaterEqual =>
      match checkNumericOperands op l r with
      | .ok (lv, rv) => some (.ok (.bool (decide (rv ≤ lv))))
      | .err m t => some (.err m t)
      | .early w => some (.early w)
  | _ => none


mutual

/-- `ExprVisitor for Interpreter` (`src/interpreter/src/interpreter.rs`),
fuel-indexed; `none` is a panic (unset resolver slot, arena miss, bad
operator token) or fuel exhaustion. -/
def evalExpr (fuel : Nat) (st : IState) (env : Nat) (e : Expr) :
    Option (Ctl RuntimeValue × IState) :=
  match fuel with
  | 0 => none
  | fuel + 1 =>
      match e with
      | .literal v =>
          some (.ok (match v with
            | .nil => .nil
            | .bool b => .bool b
            | .number n => .number n
            | .string s => .string s), st)
      | .varE name slot => do
          let si ← slot.get
          let r ← lookupVariable st env name si
          some (r, st)
      | .assign name value slot => do
          let (r, st) ← evalExpr fuel st env value
          match r with
          | .ok v => do
              let si ← slot.get
              match si with
              | some idx => do
                  let st ← st.assignAt env name.lexeme idx v
                  some (.ok v, st)
              | none => do
                  let r2 ← st.envAssign (st.envs.length + 1) 0 name v
                  match r2 with
                  | .ok st => some (.ok v, st)
                  | .early w => some (.early w, st)
                  | .err m t => some (.err m t, st)
          | other => some (other, st)
      | .unary op e => do
          let (r, st) ← evalExpr fuel st env e
          match r with
          | .ok operand =>
              match op.ttype with
              | .bang => some (.ok (.bool !operand.is_truthy), st)
              | .minus =>
                  match checkNumericOperand op operand with
                  | .ok n => some (.ok (.number (-n)), st)
                  | .err m t => some (.err m t, st)
                  | .early w => some (.early w, st)
              | _ => none
          | other => some (other, st)
      | .binary l op r => do
          let (rl, st) ← evalExpr fuel st env l
          match rl with
          | .ok lv => do
              let (rr, st) ← evalExpr fuel st env r
              match rr with
              | .ok rv => do
                  let c ← binaryOp op lv rv
                  some (c, st)
              | other => some (other, st)
          | other => some (other, st)
      | .condition l op r => do
          let (rl, st) ← evalExpr fuel st env l
          match rl with
          | .ok lv =>
              match op.ttype with
              | .kOr =>
                  if lv.is_truthy then some (.ok (.bool true), st)
                  else do
                    let (rr, st) ← evalExpr fuel st env r
                    match rr with
                    | .ok rv => some (.ok (.bool rv.is_truthy), st)
                    | other => some (other, st)
              | .kAnd =>
                  if !lv.is_truthy then some (.ok (.bool false), st)
                  else do
                    let (rr, st) ← evalExpr fuel st env r
                    match rr with
                    | .ok rv => some (.ok (.bool rv.is_truthy), st)
                    | other => some (other, st)
              | _ => none
          | other => some (other, st)
      | .grouping e => evalExpr fuel st env e
      | .call callee paren args => do
          let (rc, st) ← evalExpr fuel st env callee
          match rc with
          | .ok calleeV =>
              let callable : Option (Nat × Bool) :=
                match calleeV with
                | .builtin _ a => some (a, true)
                | .declaredFn f => some (f.arity, true)
                | .classV c => some (c.arity, true)
                | _ => none
              match callable with
              | none =>
                  some (.err "Can only call functions and classes." paren, st)
              | some (arity, _) =>
                  if args.length ≠ arity then
                    some (.err ("Expected " ++ Nat.repr arity ++ " arguments but got " ++
                      Nat.repr args.length ++ ".") paren, st)
                  else do
                    let (ra, st) ← evalArgs fuel st env args
                    match ra with
                    | .ok argVals => callValue fuel st calleeV argVals
                    | .early w => some (.early w, st)
                    | .err m t => some (.err m t, st)
          | other => some (other, st)
      | .getE obj name => do
          let (ro, st) ← evalExpr fuel st env obj
          match ro with
          | .ok (.instanceV id) => st.instanceGet id name
          | .ok _ => some (.err "Only instances have properties." name, st)
          | other => some (other, st)
      | .setE obj name value => do
          let (ro, st) ← evalExpr fuel st env obj
          match ro with
          | .ok (.instanceV id) => do
              let (rv, st) ← evalExpr fuel st env value
              match rv with
              | .ok v => some (.ok v, st.instanceSet id name.lexeme v)
              | other => some (other, st)
          | .ok _ => some (.err "Only instances have properties." name, st)
          | other => some (other, st)
      | .thisE token slot => do
          let si ← slot.get
          let r ← lookupVariable st env token si
          some (r, st)
      | .superE keyword method slot => do
          let si ← slot.get
          let idx ← si
          let superV ← st.getAt env keyword.lexeme idx
          match superV with
          | .classV c =>
              match findMethod c method.lexeme with
              | some m => do
                  let thisV ← st.getAt env "this" (idx - 1)
                  match thisV with
                  | .instanceV id =>
                      let (m', st) := bindMethod st m id
                      some (.ok (.declaredFn m'), st)
                  | _ => none
              | none =>
                  some (.err ("Undefined property " ++ squote ++ method.lexeme ++
                    squote ++ ".") method, st)
          | _ => none

termination_by structural fuel

/-- Argument evaluation, left to right, aborting on the first non-`Ok`. -/
def evalArgs (fuel : Nat) (st : IState) (env : Nat) (es : List Expr) :
    Option (Ctl (List RuntimeValue) × IState) :=
  match fuel with
  | 0 => none
  | fuel + 1 =>
      match es with
      | [] => some (.ok [], st)
      | e :: rest => do
          let (r, st) ← evalExpr fuel st env e
          match r with
          | .ok v => do
              let (rr, st) ← evalArgs fuel st env rest
              match rr with
              | .ok vs => some (.ok (v :: vs), st)
              | .early w => some (.early w, st)
              | .err m t => some (.err m t, st)
          | .early w => some (.early w, st)
          | .err m t => some (.err m t, st)

termination_by structural fuel

/-- `Callable::call` dispatch (builtin, declared function, class). -/
def callValue (fuel : Nat) (st : IState) (callee : RuntimeValue)
    (args : List RuntimeValue) : Option (Ctl RuntimeValue × IState) :=
  match fuel with
  | 0 => none
  | fuel + 1 =>
      match callee with
      | .builtin _ _ => some (.ok (.number st.now), st)
      | .declaredFn f => declaredFnCall fuel st f args
      | .classV c => classCall fuel st c args
      | _ => none

termination_by structural fuel

/-- `DeclaredFunction::call`: run the body in a fresh environment enclosed
by the closure; an initializer discards the body's result (normal or early
`return`) in favour of `this` at closure depth 0. -/
def declaredFnCall (fuel : Nat) (st : IState) (f : DeclFn)
    (args : List RuntimeValue) : Option (Ctl RuntimeValue × IState) :=
  match fuel with
  | 0 => none
  | fuel + 1 =>
      let newId := st.envs.length
      let st := { st with envs := st.envs ++
        [{ enclosing := some f.closure, values := zipParams f.parameters args }] }
      do
        let (r, st) ← execStmts fuel st newId f.body
        match r with
        | .ok _ =>
            if f.isInitializer then do
              let v ← st.getAt f.closure "this" 0
              some (.ok v, st)
            else some (.ok .nil, st)
        | .early v =>
            if f.isInitializer then do
              let w ← st.getAt f.closure "this" 0
              some (.ok w, st)
            else some (.ok v, st)
        | .err m t => some (.err m t, st)

termination_by structural fuel

/-- `Class::call`: construct a fresh instance; if `init` exists, bind and
call it (its value discarded, its error propagated); yield the instance. -/
def classCall (fuel : Nat) (st : IState) (c : ClassV)
    (args : List RuntimeValue) : Option (Ctl RuntimeValue × IState) :=
  match fuel with
  | 0 => none
  | fuel + 1 =>
      let instId := st.insts.length
      let st := { st with insts := st.insts ++ [⟨c, []⟩] }
      match findMethod c "init" with
      | some init => do
          let (bf, st) := bindMethod st init instId
          let (r, st) ← declaredFnCall fuel st bf args
          match r with
          | .ok _ => some (.ok (.instanceV instId), st)
          | .early w => some (.early w, st)
          | .err m t => some (.err m t, st)
      | none => some (.ok (.instanceV instId), st)

termination_by structural fuel

/-- `StmtVisitor for Interpreter`. -/
def execStmt (fuel : Nat) (st : IState) (env : Nat) (s : Stmt) :
    Option (Ctl Unit × IState) :=
  match fuel with
  | 0 => none
  | fuel + 1 =>
      match s with
      | .expression e => do
          let (r, st) ← evalExpr fuel st env e
          match r with
          | .ok _ => some (.ok (), st)
          | .early v => some (.early v, st)
          | .err m t => some (.err m t, st)
      | .block ss =>
          let newId := st.envs.length
          let st := { st with envs := st.envs ++ [{ enclosing := some env, values := [] }] }
          execStmts fuel st newId ss
      | .varS name ini => do
          let (r, st) ←
            match ini with
            | some e => evalExpr fuel st env e
            | none => some (.ok .nil, st)
          match r with
          | .ok v => some (.ok (), st.define env name.lexeme v)
          | .early v => some (.early v, st)
          | .err m t => some (.err m t, st)
      | .functionS name parameters body =>
          some (.ok (), st.define env name.lexeme
            (.declaredFn ⟨name, parameters, body, env, false⟩))
      | .printS e => do
          let (r, st) ← evalExpr fuel st env e
          match r with
          | .ok v =>
              some (.ok (), { st with ec := { st.ec with out := st.ec.out ++ [st.display v] } })
          | .early v => some (.early v, st)
          | .err m t => some (.err m t, st)
      | .ifS cond thenS elseS => do
          let (r, st) ← evalExpr fuel st env cond
          match r with
          | .ok v =>
              if v.is_truthy then execStmt fuel st env thenS
              else
                match elseS with
                | some s => execStmt fuel st env s
                | none => some (.ok (), st)
          | .early v => some (.early v, st)
          | .err m t => some (.err m t, st)
      | .whileS cond body => whileLoop fuel st env cond body
      | .returnS _ value => do
          let (r, st) ←
            match value with
            | some e => evalExpr fuel st env e
            | none => some (.ok .nil, st)
          match r with
          | .ok v => some (.early v, st)
          | .early v => some (.early v, st)
          | .err m t => some (.err m t, st)
      | .classS name superClass methods => do
          let st := st.define env name.lexeme .nil
          let withMethodEnv := fun (methodEnv : Nat) (superC : Option ClassV)
              (st : IState) => do
            let builtMethods ← methodTable methods methodEnv
            let classV := RuntimeValue.classV (.mk name.lexeme superC builtMethods)
            let r ← st.envAssign (st.envs.length + 1) env name classV
            match r with
            | .ok st => some (Ctl.ok (), st)
            | .early w => some (Ctl.early w, st)
            | .err m t => some (Ctl.err m t, st)
          match superClass with
          | some superExpr => do
              let (rs, st) ← evalExpr fuel st env superExpr
              match rs with
              | .ok (.classV c) =>
                  let newId := st.envs.length
                  let st := { st with envs := st.envs ++
                    [{ enclosing := some env, values := alSet [] "super" (.classV c) }] }
                  withMethodEnv newId (some c) st
              | .ok _ => do
                  let tok ← superClassNameToken superExpr
                  some (.err "Super class must be a class" tok, st)
              | .early v => some (.early v, st)
              | .err m t => some (.err m t, st)
          | none => withMethodEnv env none st

termination_by structural fuel

/-- The `while` loop of `visit_while_stmt`. -/
def whileLoop (fuel : Nat) (st : IState) (env : Nat) (cond : Expr) (body : Stmt) :
    Option (Ctl Unit × IState) :=
  match fuel with
  | 0 => none
  | fuel + 1 => do
      let (r, st) ← evalExpr fuel st env cond
      match r with
      | .ok v =>
          if v.is_truthy then do
            let (rb, st) ← execStmt fuel st env body
            match rb with
            | .ok _ => whileLoop fuel st env cond body
            | .early w => some (.early w, st)
            | .err m t => some (.err m t, st)
          else some (.ok (), st)
      | .early v => some (.early v, st)
      | .err m t => some (.err m t, st)

termination_by structural fuel

/-- The statement loop of `Interpreter::execute_block` (the environment
swap is the caller passing `env`). -/
def execStmts (fuel : Nat) (st : IState) (env : Nat) (ss : List Stmt) :
    Option (Ctl Unit × IState) :=
  match fuel with
  | 0 => none
  | fuel + 1 =>
      match ss with
      | [] => some (.ok (), st)
      | s :: rest => do
          let (r, st) ← execStmt fuel st env s
          match r with
          | .ok _ => execStmts fuel st env rest
          | .early v => some (.early v, st)
          | .err m t => some (.err m t, st)

termination_by structural fuel
end

end TreeLox

namespace TreeLox

/-- The statement loop of `Interpreter::interpret`: a runtime error is
reported through the collector and stops the run; a stray top-level
`Return` is ignored and the loop continues. -/
def interpretLoop (fuel : Nat) (st : IState) (ss : List Stmt) : Option IState :=
  match ss with
  | [] => some st
  | s :: rest => do
      let (r, st) ← execStmt fuel st 0 s
      match r with
      | .ok _ => interpretLoop fuel st rest
      | .early _ => interpretLoop fuel st rest
      | .err m t => some { st with ec := st.ec.runtimeError m t }

/-- `Interpreter::new`: globals holding the `clock` builtin. -/
def initialIState (ec : EC) : IState :=
  { envs := [{ enclosing := none, values := alSet [] "clock" (.builtin "clock" 0) }],
    insts := [], ec := ec, now := 0 }

/-- `Lox::run` (`src/interpreter/src/lox.rs`): scan, parse, stop on static
errors, resolve, stop on static errors, interpret. -/
def loxRun (fuel : Nat) (source : List Char) : Option EC := do
  let (toks, ec) := scanTokens source EC.fresh
  let (stmts, ec) ← parseProgram toks ec
  if ec.hadError then some ec
  else do
    let (stmts, ec) ← resolveProgram stmts ec
    if ec.hadError then some ec
    else do
      let st ← interpretLoop fuel (initialIState ec) stmts
      some st.ec

/-- `Lox::run_file`: run, then exit 1 on a static or runtime error, else
0.  Yields the stdout lines and the exit status. -/
def runFile (fuel : Nat) (source : List Char) : Option (List String × Nat) := do
  let ec ← loxRun fuel source
  some (ec.out, if ec.hadError then 1 else if ec.hadRuntimeError then 1 else 0)

end TreeLox

open TreeLox VmLox in
/-- C4: in the tree-walking evaluator a runtime value is truthy exactly
when it is `Bool(true)` — `Nil`, `Bool(false)`, every number (including 0),
every string (including the empty one), builtin and declared functions,
classes and instances are all falsey — and in the VM `is_falsy` is false
exactly on `Bool(true)`. -/
theorem c4_truthiness :
    (∀ v : RuntimeValue, v.is_truthy = true ↔ v = RuntimeValue.bool true) ∧
    (∀ w : Value, w.isFalsy = false ↔ w = Value.bool true) := by
  constructor
  · intro v
    cases v with
    | bool b => cases b <;> simp [RuntimeValue.is_truthy]
    | _ => simp [RuntimeValue.is_truthy]
  · intro w
    cases w with
    | bool b => cases b <;> simp [Value.isFalsy]
    | _ => simp [Value.isFalsy]

namespace TreeLox

/-- The §8 scenario-6 source: `var a; a = b;` with `b` undefined. -/
def c9Source : List Char := "var a; a = b;".toList

end TreeLox


namespace TreeLox

/-- The identifier tokens of `var a; a = b;`. -/
def c9TokA : Token := { ttype := .identifier, lexeme := "a", line := 1, literal := none }

def c9TokB : Token := { ttype := .identifier, lexeme := "b", line := 1, literal := none }

/-- The token stream the tree scanner produces for `var a; a = b;`. -/
def c9Tokens : List Token :=
  [{ ttype := .kVar, lexeme := "var", line := 1, literal := none },
   c9TokA,
   { ttype := .semicolon, lexeme := ";", line := 1, literal := none },
   c9TokA,
   { ttype := .equal, lexeme := "=", line := 1, literal := none },
   c9TokB,
   { ttype := .semicolon, lexeme := ";", line := 1, literal := none },
   { ttype := .eof, lexeme := "", line := 1, literal := none }]

/-- The parsed program for `var a; a = b;`. -/
def c9Parsed : List Stmt :=
  [.varS c9TokA none,
   .expression (.assign c9TokA (.varE c9TokB ⟨none⟩) ⟨none⟩)]

/-- The resolved program: both slots written with `none` (global). -/
def c9Resolved : List Stmt :=
  [.varS c9TokA none,
   .expression (.assign c9TokA (.varE c9TokB ⟨some none⟩) ⟨some none⟩)]

/-- The tail of `Lox::run` after the resolver stage (used to restate the
pipeline around the one non-reducing stage). -/
def afterResolve (fuel : Nat) (r : List Stmt × EC) : Option EC :=
  if r.2.hadError then some r.2
  else do
    let st ← interpretLoop fuel (initialIState r.2) r.1
    some st.ec

end TreeLox

open TreeLox in
/-- C9: `Environment::get` searches the chain from the innermost scope
outward — a hit in the current scope wins, a miss defers to the enclosing
environment, and an exhausted chain fails with the runtime error
`Variable 'X' is not defined.`; and running the full pipeline on
`var a; a = b;` prints `Variable 'b' is not defined. [line 1]` and exits
with status 1. -/
theorem c9_undefined_variable :
    (∀ (st : IState) (fuel id : Nat) (tok : Token) (v : RuntimeValue),
        alGet (st.envValues id) tok.lexeme = some v →
        st.envGet (fuel + 1) id tok = some (.ok v)) ∧
    (∀ (st : IState) (fuel id p : Nat) (tok : Token),
        alGet (st.envValues id) tok.lexeme = none →
        st.envEnclosing id = some p →
        st.envGet (fuel + 1) id tok = st.envGet fuel p tok) ∧
    (∀ (st : IState) (fuel id : Nat) (tok : Token),
        alGet (st.envValues id) tok.lexeme = none →
        st.envEnclosing id = none →
        st.envGet (fuel + 1) id tok =
          some (.err ("Variable " ++ squote ++ tok.lexeme ++ squote ++
            " is not defined.") tok)) ∧
    runFile 100 c9Source =
      some (["Variable " ++ squote ++ "b" ++ squote ++ " is not defined. [line 1]"], 1) := by
  refine ⟨?_, ?_, ?_, ?_⟩
  · intro st fuel id tok v h
    simp only [IState.envGet, h]
  · intro st fuel id p tok h he
    simp only [IState.envGet, h, he]
  · intro st fuel id tok h he
    simp only [IState.envGet, h, he]
  · have hres : resolveProgram c9Parsed EC.fresh = some (c9Resolved, EC.fresh) := by
      simp [resolveProgram, resolveStmtList, resolveStmt, resolveExpr, c9Parsed,
        c9Resolved, RState.declare, RState.define, RState.resolveLocal, LateCell.set,
        alSet, alGet, alHas, EC.fresh]
    have h1 : loxRun 100 c9Source = (resolveProgram c9Parsed EC.fresh).bind (afterResolve 100) := by
      rfl
    have h2 : loxRun 100 c9Source =
        some { out := ["Variable " ++ squote ++ "b" ++ squote ++ " is not defined. [line 1]"],
               hadError := false, hadRuntimeError := true } := by
      rw [h1, hres]; rfl
    have h3 : runFile 100 c9Source = (loxRun 100 c9Source).bind
        (fun ec => some (ec.out, if ec.hadError then 1 else if ec.hadRuntimeError then 1 else 0)) := by
      rfl
    rw [h3, h2]; rfl

open TreeLox in
/-- Witness for `c9_undefined_variable`'s conditional conjuncts at a
concrete two-scope chain: `x` found in the inner scope, missed and deferred
from the inner to the global scope, and missing everywhere. -/
theorem c9_undefined_variable_witness :
    (let st : IState :=
      { envs := [{ enclosing := none, values := [] },
                 { enclosing := some 0, values := [("x", .number 1)] }],
        insts := [], ec := EC.fresh, now := 0 }
     let tok : Token := { ttype := .identifier, lexeme := "x", line := 1, literal := none }
     st.envGet 3 1 tok = some (.ok (.number 1)) ∧
     st.envGet 3 1 { tok with lexeme := "y" } = st.envGet 2 0 { tok with lexeme := "y" } ∧
     st.envGet 3 0 { tok with lexeme := "y" } =
       some (.err ("Variable " ++ squote ++ "y" ++ squote ++ " is not defined.")
         { tok with lexeme := "y" })) := by
  refine ⟨?_, ?_, ?_⟩
  · exact (c9_undefined_variable.1 _ 2 1 _ _ (by rfl))
  · exact (c9_undefined_variable.2.1 _ 2 1 0 _ (by rfl) (by rfl))
  · exact (c9_undefined_variable.2.2.1 _ 2 0 _ (by rfl) (by rfl))

namespace TreeLox

/-- When the key is present, the overwrite branch of `HashMap::insert`
makes a later `get` of the key return the written value. -/
theorem alGet_map_self {α : Type} (k : String) (v : α) :
    ∀ l : List (String × α), l.any (fun kv => kv.1 = k) = true →
      alGet (l.map (fun kv => if kv.1 = k then (k, v) else kv)) k = some v := by
  intro l
  induction l with
  | nil => intro h; simp at h
  | cons hd tl ih =>
      intro h
      by_cases hh : hd.1 = k
      · simp [alGet, List.find?_cons, hh]
      · simp only [List.any_cons, hh, decide_False, Bool.false_or] at h
        simpa [alGet, List.find?_cons, hh] using ih h

/-- When the key is absent, the append branch of `HashMap::insert` makes a
later `get` of the key return the written value. -/
theorem alGet_append_self {α : Type} (k : String) (v : α) :
    ∀ l : List (String × α), l.any (fun kv => kv.1 = k) = false →
      alGet (l ++ [(k, v)]) k = some v := by
  intro l
  induction l with
  | nil => intro h; simp [alGet, List.find?_cons]
  | cons hd tl ih =>
      intro h
      simp only [List.any_cons, Bool.or_eq_false_iff] at h
      have hh : ¬ hd.1 = k := by simpa using h.1
      simpa [alGet, List.find?_cons, hh] using ih h.2

/-- Writing a key with `HashMap::insert` makes a later `get` of that key
return the written value. -/
theorem alGet_alSet_self {α : Type} (l : List (String × α)) (k : String) (v : α) :
    alGet (alSet l k v) k = some v := by
  unfold alSet
  by_cases h : l.any (fun kv => kv.1 = k)
  · simpa [if_pos h] using alGet_map_self k v l h
  · have hf : l.any (fun kv => kv.1 = k) = false := by
      simp only [Bool.not_eq_true] at h; exact h
    simpa [if_neg h] using alGet_append_self k v l hf

/-- The interpreter state for the plain-assignment half of the C10 witness:
one global scope binding `a`. -/
def c10StA : IState :=
  { envs := [{ enclosing := none, values := [("a", RuntimeValue.nil)] }],
    insts := [], ec := EC.fresh, now := 0 }

/-- The interpreter state for the property-assignment half of the C10
witness: a global binding `o` holding the single instance of class `K`. -/
def c10StB : IState :=
  { envs := [{ enclosing := none, values := [("o", RuntimeValue.instanceV 0)] }],
    insts := [⟨.mk "K" none [], []⟩], ec := EC.fresh, now := 0 }

/-- The identifier tokens used by the C10 witness. -/
def c10TokA : Token := { ttype := .identifier, lexeme := "a", line := 1, literal := none }

def c10TokO : Token := { ttype := .identifier, lexeme := "o", line := 1, literal := none }

def c10TokF : Token := { ttype := .identifier, lexeme := "f", line := 1, literal := none }

end TreeLox

open TreeLox in
/-- C10: an assignment `name = e` that evaluates to a normal value yields
exactly the value `e` evaluated to, and stores that same value through
`assign_at` (resolved local) or `Environment::assign` (global); a property
assignment `obj.field = e` likewise yields the value of `e`, stores it into
the instance's field map, and the field map afterwards maps the field to
that value. -/
theorem c10_assignment_yields_stored_value :
    (∀ (fuel : Nat) (st st1f : IState) (env : Nat) (name : Token) (value : Expr)
        (slot : Slot) (v : RuntimeValue),
        evalExpr (fuel + 1) st env (.assign name value slot) = some (.ok v, st1f) →
        ∃ st1, evalExpr fuel st env value = some (.ok v, st1) ∧
          ((∃ idx, slot.get = some (some idx) ∧
              st1.assignAt env name.lexeme idx v = some st1f) ∨
           (slot.get = some none ∧
              st1.envAssign (st1.envs.length + 1) 0 name v = some (.ok st1f)))) ∧
    (∀ (fuel : Nat) (st st2f : IState) (env : Nat) (obj : Expr) (name : Token)
        (value : Expr) (v : RuntimeValue),
        evalExpr (fuel + 1) st env (.setE obj name value) = some (.ok v, st2f) →
        ∃ id st1 st2, evalExpr fuel st env obj = some (.ok (.instanceV id), st1) ∧
          evalExpr fuel st1 env value = some (.ok v, st2) ∧
          st2f = st2.instanceSet id name.lexeme v ∧
          (id < st2.insts.length →
            alGet (st2f.insts.getD id ⟨.mk "" none [], []⟩).fields name.lexeme =
              some v)) := by
  constructor
  · intro fuel st st1f env name value slot v h
    simp only [evalExpr] at h
    cases hv : evalExpr fuel st env value with
    | none => rw [hv] at h; simp at h
    | some p =>
        obtain ⟨r1, st1⟩ := p
        rw [hv] at h
        simp only [Option.bind_eq_bind, Option.some_bind] at h
        cases r1 with
        | ok w =>
            cases hs : slot.get with
            | none => simp [hs] at h
            | some si =>
                cases si with
                | some idx =>
                    cases ha : st1.assignAt env name.lexeme idx w with
                    | none => simp [hs, ha] at h
                    | some st2 =>
                        simp only [hs, ha, Option.bind_eq_bind, Option.some_bind,
                          Option.some.injEq, Prod.mk.injEq, Ctl.ok.injEq] at h
                        obtain ⟨hw, hst⟩ := h
                        subst hw; subst hst
                        exact ⟨st1, rfl, .inl ⟨idx, rfl, ha⟩⟩
                | none =>
                    cases hr2 : st1.envAssign (st1.envs.length + 1) 0 name w with
                    | none => simp [hs, hr2] at h
                    | some c =>
                        cases c with
                        | ok st2 =>
                            simp only [hs, hr2, Option.bind_eq_bind, Option.some_bind,
                              Option.some.injEq, Prod.mk.injEq, Ctl.ok.injEq] at h
                            obtain ⟨hw, hst⟩ := h
                            subst hw; subst hst
                            exact ⟨st1, rfl, .inr ⟨rfl, hr2⟩⟩
                        | early u => simp [hs, hr2] at h
                        | err m t => simp [hs, hr2] at h
        | early u => simp at h
        | err m t => simp at h
  · intro fuel st st2f env obj name value v h
    simp only [evalExpr] at h
    cases ho : evalExpr fuel st env obj with
    | none => rw [ho] at h; simp at h
    | some p =>
        obtain ⟨ro, st1⟩ := p
        rw [ho] at h
        simp only [Option.bind_eq_bind, Option.some_bind] at h
        cases ro with
        | ok ov =>
            cases ov with
            | instanceV id =>
                cases hv : evalExpr fuel st1 env value with
                | none => rw [hv] at h; simp at h
                | some q =>
                    obtain ⟨rv, st2⟩ := q
                    rw [hv] at h
                    simp only [Option.bind_eq_bind, Option.some_bind] at h
                    cases rv with
                    | ok w =>
                        simp only [Option.some.injEq, Prod.mk.injEq, Ctl.ok.injEq] at h
                        obtain ⟨hw, hst⟩ := h
                        subst hw; subst hst
                        refine ⟨id, st1, st2, rfl, hv, rfl, fun hid => ?_⟩
                        simp only [IState.instanceSet, List.getD, List.get?_eq_getElem?]
                        rw [List.getElem?_set_eq_of_lt _ (by simpa using hid)]
                        simp [alGet_alSet_self]
                    | early u => simp at h
                    | err m t => simp at h
            | nil => simp at h
            | bool b => simp at h
            | number n => simp at h
            | string s => simp at h
            | builtin n a => simp at h
            | declaredFn f => simp at h
            | classV c => simp at h
        | early u => simp at h
        | err m t => simp at h

open TreeLox in
/-- Witness for `c10_assignment_yields_stored_value`: the global assignment
`a = 5` in a one-scope state, and the property assignment `o.f = 7` on the
single instance of class `K`. -/
theorem c10_assignment_yields_stored_value_witness :
    (∃ st1, evalExpr 1 c10StA 0 (.literal (.number 5)) = some (.ok (.number 5), st1) ∧
      ((∃ idx, (LateCell.mk (some none) : Slot).get = some (some idx) ∧
          st1.assignAt 0 c10TokA.lexeme idx (.number 5) =
            some (c10StA.define 0 "a" (.number 5))) ∨
       ((LateCell.mk (some none) : Slot).get = some none ∧
          st1.envAssign (st1.envs.length + 1) 0 c10TokA (.number 5) =
            some (.ok (c10StA.define 0 "a" (.number 5)))))) ∧
    (∃ id st1 st2,
      evalExpr 1 c10StB 0 (.varE c10TokO ⟨some (some 0)⟩) =
        some (.ok (.instanceV id), st1) ∧
      evalExpr 1 st1 0 (.literal (.number 7)) = some (.ok (.number 7), st2) ∧
      c10StB.instanceSet 0 "f" (.number 7) =
        st2.instanceSet id c10TokF.lexeme (.number 7) ∧
      (id < st2.insts.length →
        alGet ((c10StB.instanceSet 0 "f" (.number 7)).insts.getD id
          ⟨.mk "" none [], []⟩).fields c10TokF.lexeme = some (.number 7))) :=
  ⟨c10_assignment_yields_stored_value.1 1 c10StA (c10StA.define 0 "a" (.number 5)) 0
      c10TokA (.literal (.number 5)) ⟨some none⟩ (.number 5) (by rfl),
   c10_assignment_yields_stored_value.2 1 c10StB (c10StB.instanceSet 0 "f" (.number 7))
      0 (.varE c10TokO ⟨some (some 0)⟩) c10TokF (.literal (.number 7)) (.number 7)
      (by rfl)⟩

namespace TreeLox

/-- Pushing onto an arena: the new cell sits at the old length. -/
theorem getD_append_length {α : Type} (l : List α) (a d : α) :
    (l ++ [a]).getD l.length d = a := by
  induction l with
  | nil => rfl
  | cons hd tl ih => simp [ih]

/-- The class used by the C3 witness: `C` with no methods. -/
def c3Class : ClassV := .mk "C" none []

/-- The interpreter state for the C3 witness: one global scope binding
`this` to the single instance of `C`. -/
def c3St : IState :=
  { envs := [{ enclosing := none, values := [("this", RuntimeValue.instanceV 0)] }],
    insts := [⟨c3Class, []⟩], ec := EC.fresh, now := 0 }

/-- The `this` token and the bare initializer used by the C3 witness. -/
def c3TokThis : Token := { ttype := .kThis, lexeme := "this", line := 1, literal := none }

def c3Init : DeclFn :=
  { fname := c3TokThis, parameters := [], body := [], closure := 0, isInitializer := true }

end TreeLox

open TreeLox in
/-- C3: `Class::call` constructs a fresh instance — with no `init` it
returns exactly the instance pushed at the old arena length, with fields
empty and class `C`, and any successful call's value is that fresh
instance; `DeclaredFunction::call` on an initializer discards the body's
value on both the normal and the early-`return` path and yields the `this`
bound at closure depth 0 (erroring only if the body errors);
`DeclaredFunction::bind` binds `this` at depth 0 of the bound method's
closure to the instance; and a `this` expression evaluates by `get_at` at
its resolved depth. -/
theorem c3_initializer_identity :
    (∀ (fuel : Nat) (st : IState) (c : ClassV) (args : List RuntimeValue),
        findMethod c "init" = none →
        classCall (fuel + 1) st c args =
          some (.ok (.instanceV st.insts.length),
            { st with insts := st.insts ++ [⟨c, []⟩] })) ∧
    (∀ (fuel : Nat) (st st1 : IState) (c : ClassV) (args : List RuntimeValue)
        (r : Ctl RuntimeValue),
        classCall (fuel + 1) st c args = some (r, st1) →
        ∀ v, r = .ok v → v = .instanceV st.insts.length) ∧
    (∀ (fuel : Nat) (st st1 : IState) (f : DeclFn) (args : List RuntimeValue)
        (r : Ctl RuntimeValue),
        f.isInitializer = true →
        declaredFnCall (fuel + 1) st f args = some (r, st1) →
        (∃ m t, r = .err m t) ∨
        (∃ v, r = .ok v ∧ st1.getAt f.closure "this" 0 = some v)) ∧
    (∀ (st : IState) (f : DeclFn) (instId : Nat),
        ((bindMethod st f instId).2).getAt ((bindMethod st f instId).1).closure
          "this" 0 = some (.instanceV instId)) ∧
    (∀ (fuel : Nat) (st : IState) (env : Nat) (tok : Token) (idx : Nat)
        (v : RuntimeValue),
        st.getAt env tok.lexeme idx = some v →
        evalExpr (fuel + 1) st env (.thisE tok ⟨some (some idx)⟩) =
          some (.ok v, st)) := by
  refine ⟨?_, ?_, ?_, ?_, ?_⟩
  · intro fuel st c args h
    simp [classCall, h]
  · intro fuel st st1 c args r h v hr
    subst hr
    simp only [classCall] at h
    cases hm : findMethod c "init" with
    | none =>
        rw [hm] at h
        simp only [Option.some.injEq, Prod.mk.injEq, Ctl.ok.injEq] at h
        exact h.1.symm
    | some init =>
        rw [hm] at h
        simp only [bindMethod] at h
        cases hd : declaredFnCall fuel
            { envs := st.envs ++
                [{ enclosing := some init.closure,
                   values := alSet [] "this" (RuntimeValue.instanceV st.insts.length) }],
              insts := st.insts ++ [{ klass := c, fields := [] }],
              ec := st.ec, now := st.now }
            { fname := init.fname, parameters := init.parameters, body := init.body,
              closure := st.envs.length, isInitializer := init.isInitializer }
            args with
        | none => rw [hd] at h; simp at h
        | some p =>
            obtain ⟨rb, stb⟩ := p
            rw [hd] at h
            simp only [Option.bind_eq_bind, Option.some_bind] at h
            cases rb with
            | ok u =>
                simp only [Option.some.injEq, Prod.mk.injEq, Ctl.ok.injEq] at h
                exact h.1.symm
            | early u => simp at h
            | err m t => simp at h
  · intro fuel st st1 f args r hinit h
    simp only [declaredFnCall] at h
    cases hb : execStmts fuel
        { st with envs := st.envs ++
          [{ enclosing := some f.closure, values := zipParams f.parameters args }] }
        st.envs.length f.body with
    | none => rw [hb] at h; simp at h
    | some p =>
        obtain ⟨rb, stb⟩ := p
        rw [hb] at h
        simp only [Option.bind_eq_bind, Option.some_bind, hinit, if_true] at h
        cases rb with
        | ok u =>
            cases hg : stb.getAt f.closure "this" 0 with
            | none => rw [hg] at h; simp at h
            | some w =>
                rw [hg] at h
                simp only [Option.some_bind, Option.some.injEq, Prod.mk.injEq] at h
                exact .inr ⟨w, h.1.symm, h.2 ▸ hg⟩
        | early u =>
            cases hg : stb.getAt f.closure "this" 0 with
            | none => rw [hg] at h; simp at h
            | some w =>
                rw [hg] at h
                simp only [Option.some_bind, Option.some.injEq, Prod.mk.injEq] at h
                exact .inr ⟨w, h.1.symm, h.2 ▸ hg⟩
        | err m t =>
            simp only [Option.some.injEq, Prod.mk.injEq] at h
            exact .inl ⟨m, t, h.1.symm⟩
  · intro st f instId
    simp [bindMethod, IState.getAt, IState.envAt, IState.envValues,
      getD_append_length, alSet, alGet, List.find?]
  · intro fuel st env tok idx v h
    simp [evalExpr, lookupVariable, LateCell.get, h]

open TreeLox in
/-- Witness for `c3_initializer_identity` at the class `C` without `init`,
the empty-bodied initializer `c3Init`, and a `this` lookup in `c3St`. -/
theorem c3_initializer_identity_witness :
    (classCall 1 c3St c3Class [] =
      some (.ok (.instanceV c3St.insts.length),
        { c3St with insts := c3St.insts ++ [⟨c3Class, []⟩] })) ∧
    (RuntimeValue.instanceV 1 = .instanceV c3St.insts.length) ∧
    ((∃ m t, (Ctl.ok (RuntimeValue.instanceV 0) : Ctl RuntimeValue) = .err m t) ∨
     (∃ v, (Ctl.ok (RuntimeValue.instanceV 0) : Ctl RuntimeValue) = .ok v ∧
        IState.getAt
          { c3St with envs := c3St.envs ++
            [{ enclosing := some c3Init.closure,
               values := zipParams c3Init.parameters [] }] }
          c3Init.closure "this" 0 = some v)) ∧
    (((bindMethod c3St c3Init 0).2).getAt ((bindMethod c3St c3Init 0).1).closure
        "this" 0 = some (.instanceV 0)) ∧
    (evalExpr 1 c3St 0 (.thisE c3TokThis ⟨some (some 0)⟩) =
      some (.ok (.instanceV 0), c3St)) :=
  ⟨c3_initializer_identity.1 0 c3St c3Class [] (by rfl),
   c3_initializer_identity.2.1 0 c3St
      { c3St with insts := c3St.insts ++ [⟨c3Class, []⟩] } c3Class []
      (.ok (.instanceV 1)) (by rfl) (.instanceV 1) rfl,
   c3_initializer_identity.2.2.1 1 c3St
      { c3St with envs := c3St.envs ++
        [{ enclosing := some c3Init.closure,
           values := zipParams c3Init.parameters [] }] }
      c3Init [] (.ok (.instanceV 0)) rfl (by rfl),
   c3_initializer_identity.2.2.2.1 c3St c3Init 0,
   c3_initializer_identity.2.2.2.2 0 c3St 0 c3TokThis 0 (.instanceV 0) (by rfl)⟩
